import Mathlib

/-!
Oat: buffer process, viewer and planar multi-LED detector

A verification development over a shallow embedding of

* `src/buffer/main.cpp` (`run`, `main`, `type_hash`, the globals `quit` and
  `source_eof`),
* `src/frameviewer/Viewer.cpp` (`Viewer::Viewer`, `Viewer::showImage`),
* `src/positiondetector/PlanarMultiLedDetector.cpp` (`configure`,
  `detectPosition`).

Calls that leave these files (the `oat::Buffer` object, OpenCV, the option
helpers) are taken as scripted outcomes: each call either returns a value or
throws.  The shared-memory roles and the buffer's two loops are not part of the
files above; their definitions follow the design document and say so.
-/

namespace Oat

/-! ## The buffer's FIFO and its two loops -/

/-- Modelled from the spec: the state of a Buffer (`Buffer.h`, `TokenBuffer.h`
and `FrameBuffer.h` are missing).  `upstream` holds the samples the upstream
client has still to read, `fifo` is the process-local queue (head first),
`downstream` the samples published so far (oldest first), `capacity` the bound
of the queue when it has one. -/
structure BufferState (α : Type) where
  upstream : List α
  fifo : List α
  downstream : List α
  capacity : Option Nat
  intakeFinished : Bool
  drainStopped : Bool
  signalEndCalls : Nat
deriving Repr, DecidableEq

/-- The two concurrently scheduled tasks of a Buffer. -/
inductive Task where
  | intake
  | drain
deriving Repr, DecidableEq

/-- Whether the queue has room for one more entry. -/
def BufferState.hasRoom {α : Type} (s : BufferState α) : Bool :=
  match s.capacity with
  | none => true
  | some c => decide (s.fifo.length < c)

/-- Modelled from the spec: one turn of the intake loop.  It reads upstream; on
a sample it pushes the sample onto the tail of the FIFO (waiting while a
bounded FIFO is full); on end of stream it marks intake finished and stops. -/
def intakeStep {α : Type} (s : BufferState α) : BufferState α :=
  if s.intakeFinished then s
  else
    match s.upstream with
    | [] => { s with intakeFinished := true }
    | x :: rest =>
      if s.hasRoom then { s with upstream := rest, fifo := s.fifo ++ [x] }
      else s

/-- Modelled from the spec: one turn of the drain loop.  It pops the head of
the FIFO and publishes it downstream; with the FIFO empty it waits while intake
is running, and once intake has finished it calls `signalEnd()` and stops. -/
def drainStep {α : Type} (s : BufferState α) : BufferState α :=
  if s.drainStopped then s
  else
    match s.fifo with
    | x :: rest => { s with fifo := rest, downstream := s.downstream ++ [x] }
    | [] =>
      if s.intakeFinished then
        { s with drainStopped := true, signalEndCalls := s.signalEndCalls + 1 }
      else s

/-- One scheduling decision. -/
def bufferStep {α : Type} (s : BufferState α) : Task → BufferState α
  | Task.intake => intakeStep s
  | Task.drain => drainStep s

/-- The buffer under a schedule: the tasks run in the order the scheduler
picks them. -/
def runSchedule {α : Type} (s : BufferState α) (sched : List Task) : BufferState α :=
  sched.foldl bufferStep s

/-- A freshly built Buffer facing an upstream that will deliver `xs` and then
end. -/
def BufferState.init {α : Type} (xs : List α) (capacity : Option Nat) : BufferState α :=
  { upstream := xs, fifo := [], downstream := [], capacity := capacity,
    intakeFinished := false, drainStopped := false, signalEndCalls := 0 }

/-- A schedule that lets the drain loop and the intake loop take turns. -/
def fairRounds : Nat → List Task
  | 0 => []
  | n + 1 => Task.drain :: Task.intake :: fairRounds n

/-- The invariant of the two loops. -/
def BufferInv {α : Type} (xs : List α) (cap : Option Nat) (s : BufferState α) : Prop :=
  s.downstream ++ s.fifo ++ s.upstream = xs ∧
  s.capacity = cap ∧
  (s.intakeFinished = true → s.upstream = []) ∧
  (s.drainStopped = true → s.fifo = [] ∧ s.intakeFinished = true) ∧
  s.signalEndCalls = (if s.drainStopped then 1 else 0)

/-- The work left in a buffer state. -/
def bufferMeasure {α : Type} (s : BufferState α) : Nat :=
  2 * s.upstream.length + s.fifo.length +
    (if s.intakeFinished then 0 else 1) + (if s.drainStopped then 0 else 1)

/-! ## The run state of a segment and the two roles -/

/-- Modelled from the spec: the run state kept in a segment's header
(`oat::ServerRunState` is declared in a header that is missing). -/
inductive RunState where
  | INIT
  | RUNNING
  | END
deriving Repr, DecidableEq

/-- Position of a run state in the order `INIT`, `RUNNING`, `END`. -/
def RunState.rank : RunState → Nat
  | RunState.INIT => 0
  | RunState.RUNNING => 1
  | RunState.END => 2

/-- Modelled from the spec: the states of the Server (publisher) role,
`UNBOUND → BOUND → RUNNING → ENDED`. -/
inductive ServerState where
  | UNBOUND
  | BOUND
  | RUNNING
  | ENDED
deriving Repr, DecidableEq

/-- Modelled from the spec: the header at the start of a segment.
`turn_token` counts the samples published so far. -/
structure Header where
  run_state : RunState
  reader_count : Nat
  turn_token : Nat
deriving Repr, DecidableEq

/-- Modelled from the spec: a segment is its header and one payload slot. -/
structure Segment (α : Type) where
  header : Header
  slot : Option α
deriving Repr, DecidableEq

/-- Modelled from the spec: one named exchange, the writer's role state, the
segment once it has been created, and whether the name is still linked. -/
structure Exchange (α : Type) where
  server : ServerState
  segment : Option (Segment α)
  linked : Bool
deriving Repr, DecidableEq

/-- The operations that change the shared state of an exchange. -/
inductive Op (α : Type) where
  | bind
  | publish (sample : α)
  | signalEnd
  | close
  | attach
  | detach
deriving Repr, DecidableEq

/-- Why an operation was refused. -/
inductive ExchangeError where
  | BindError
  | NotFound
  | NotPublishable
deriving Repr, DecidableEq

/-- Nothing bound yet under this name. -/
def Exchange.unbound {α : Type} : Exchange α :=
  { server := ServerState.UNBOUND, segment := none, linked := false }

/-- Modelled from the spec: `bind` creates the segment with
`run_state = INIT` and fails when the name is taken. -/
def bind {α : Type} (w : Exchange α) : Except ExchangeError (Exchange α) :=
  match w.server, w.segment with
  | ServerState.UNBOUND, none =>
    Except.ok
      { server := ServerState.BOUND,
        segment := some
          { header := { run_state := RunState.INIT, reader_count := 0, turn_token := 0 },
            slot := none },
        linked := true }
  | _, _ => Except.error ExchangeError.BindError

/-- Modelled from the spec: `publish` requires `BOUND` or `RUNNING`, copies the
sample into the slot and sets `run_state = RUNNING`. -/
def publish {α : Type} (w : Exchange α) (sample : α) : Except ExchangeError (Exchange α) :=
  match w.server, w.segment with
  | ServerState.BOUND, some seg
  | ServerState.RUNNING, some seg =>
    Except.ok
      { w with
        server := ServerState.RUNNING,
        segment := some
          { header := { seg.header with run_state := RunState.RUNNING,
                                          turn_token := seg.header.turn_token + 1 },
            slot := some sample } }
  | _, _ => Except.error ExchangeError.NotPublishable

/-- Modelled from the spec: `signalEnd` sets `run_state = END`. -/
def signalEnd {α : Type} (w : Exchange α) : Except ExchangeError (Exchange α) :=
  match w.segment with
  | some seg =>
    Except.ok
      { w with
        server := ServerState.ENDED,
        segment := some { seg with header := { seg.header with run_state := RunState.END } } }
  | none => Except.error ExchangeError.NotFound

/-- Modelled from the spec: `close` unlinks the name; mappings that exist stay
valid, and calling it again changes nothing. -/
def close {α : Type} (w : Exchange α) : Except ExchangeError (Exchange α) :=
  Except.ok { w with linked := false }

/-- Modelled from the spec: `attach` opens the segment and increments
`reader_count`; it fails with `NotFound` when there is no segment. -/
def attach {α : Type} (w : Exchange α) : Except ExchangeError (Exchange α) :=
  match w.segment with
  | some seg =>
    Except.ok
      { w with
        segment := some
          { seg with header := { seg.header with reader_count := seg.header.reader_count + 1 } } }
  | none => Except.error ExchangeError.NotFound

/-- Modelled from the spec: `detach` decrements `reader_count`. -/
def detach {α : Type} (w : Exchange α) : Except ExchangeError (Exchange α) :=
  match w.segment with
  | some seg =>
    Except.ok
      { w with
        segment := some
          { seg with header := { seg.header with reader_count := seg.header.reader_count - 1 } } }
  | none => Except.error ExchangeError.NotFound

/-- One operation on an exchange. -/
def Exchange.step {α : Type} (w : Exchange α) : Op α → Except ExchangeError (Exchange α)
  | Op.bind => bind w
  | Op.publish x => publish w x
  | Op.signalEnd => signalEnd w
  | Op.close => close w
  | Op.attach => attach w
  | Op.detach => detach w

/-- An operation that is refused leaves the exchange as it was. -/
def Exchange.apply {α : Type} (w : Exchange α) (op : Op α) : Exchange α :=
  match w.step op with
  | Except.ok w1 => w1
  | Except.error _ => w

/-- The exchange after a sequence of operations. -/
def Exchange.applyAll {α : Type} (w : Exchange α) (ops : List (Op α)) : Exchange α :=
  ops.foldl Exchange.apply w

/-- The run state in the header, when the segment exists. -/
def Exchange.runState {α : Type} (w : Exchange α) : Option RunState :=
  w.segment.map (fun seg => seg.header.run_state)

/-- What a read gives back; `wouldBlock` stands for a read that has to wait. -/
inductive ReadResult (α : Type) where
  | sample (value : α)
  | EndOfStream
  | wouldBlock
deriving Repr, DecidableEq

/-- Modelled from the spec: a Client's `read`, for a client that has seen the
samples up to number `lastSeen`; it gives the result and the client's new
cursor.  With `run_state = END` the read returns at once with end of stream,
also for a client that has never seen data (the property stated for
`signalEnd()` followed by reads "by any Client"); otherwise a sample published
since the last read is copied out, and without one the read has to wait. -/
def clientRead {α : Type} (seg : Segment α) (lastSeen : Nat) : ReadResult α × Nat :=
  if seg.header.run_state = RunState.END then (ReadResult.EndOfStream, lastSeen)
  else if lastSeen < seg.header.turn_token then
    match seg.slot with
    | some x => (ReadResult.sample x, seg.header.turn_token)
    | none => (ReadResult.wouldBlock, lastSeen)
  else (ReadResult.wouldBlock, lastSeen)

/-- A read on an exchange: it needs the segment to exist. -/
def Exchange.read {α : Type} (w : Exchange α) (lastSeen : Nat) : Option (ReadResult α × Nat) :=
  w.segment.map (fun seg => clientRead seg lastSeen)

/-! ## Calls that leave the translated files -/

/-- What a call may throw.  `interprocess code` is a
`boost::interprocess::interprocess_exception` with `get_error_code() = code`;
`runtime_error` and `cvException` carry their `what()`; `unknown` is anything
else. -/
inductive Exn where
  | interprocess (code : Int)
  | runtime_error (what : String)
  | cvException (what : String)
  | unknown
deriving Repr, DecidableEq

/-- How a call ends. -/
inductive Outcome (α : Type) where
  | returns (value : α)
  | throws (e : Exn)
deriving Repr, DecidableEq

namespace Buffer

/-! ## `src/buffer/main.cpp` -/

/-- The two flags `volatile sig_atomic_t quit` and `source_eof`. -/
structure Globals where
  quit : Int
  source_eof : Int
deriving Repr, DecidableEq

/-- The flags as the program starts: `quit = 0`, `source_eof = 0`. -/
def Globals.initial : Globals := { quit := 0, source_eof := 0 }

/-- `sigHandler`: sets `quit = 1`. -/
def sigHandler (g : Globals) : Globals := { g with quit := 1 }

/-- One call into the buffer object: whether SIGINT is delivered while the call
is in progress, and how the call ends. -/
structure Call (α : Type) where
  sigint : Bool
  outcome : Outcome α
deriving Repr, DecidableEq

/-- The flags after a call during which SIGINT was (or was not) delivered. -/
def deliver (sigint : Bool) (g : Globals) : Globals :=
  if sigint then sigHandler g else g

/-- What the buffer object does when `run` calls it: the outcome of
`connectToNode()` and of the successive calls of `push()`. -/
structure Script where
  connectToNode : Call Unit
  push : List (Call Bool)
deriving Repr, DecidableEq

/-- How `run` (or its loop) ends; `running` means the script ran out while the
loop was about to push again. -/
inductive Exit where
  | returned
  | threw (e : Exn)
  | running
deriving Repr, DecidableEq

/-- The flags, the number of calls made and the way `run` ended. -/
structure RunResult where
  globals : Globals
  connects : Nat
  pushes : Nat
  exit : Exit
deriving Repr, DecidableEq

/-- The loop condition `!quit && !source_eof`. -/
def loopCheck (g : Globals) : Bool := (g.quit == 0) && (g.source_eof == 0)

/-- The loop `while (!quit && !source_eof) source_eof = buffer->push();`
after `pushes` calls of `push`. -/
def pushLoop (g : Globals) (pushes : Nat) : List (Call Bool) → RunResult
  | [] =>
    if loopCheck g then { globals := g, connects := 1, pushes := pushes, exit := Exit.running }
    else { globals := g, connects := 1, pushes := pushes, exit := Exit.returned }
  | c :: rest =>
    if loopCheck g then
      match c.outcome with
      | Outcome.returns eof =>
        pushLoop { deliver c.sigint g with source_eof := if eof then 1 else 0 } (pushes + 1) rest
      | Outcome.throws e =>
        { globals := deliver c.sigint g, connects := 1, pushes := pushes + 1,
          exit := Exit.threw e }
    else { globals := g, connects := 1, pushes := pushes, exit := Exit.returned }

/-- The body of the `try` block of `run`. -/
def runBody (g : Globals) (s : Script) : RunResult :=
  match s.connectToNode.outcome with
  | Outcome.returns () => pushLoop (deliver s.connectToNode.sigint g) 0 s.push
  | Outcome.throws e =>
    { globals := deliver s.connectToNode.sigint g, connects := 1, pushes := 0,
      exit := Exit.threw e }

/-- `run`: the `try` block, and the handler that swallows an
`interprocess_exception` with error code 1 and rethrows every other one. -/
def run (g : Globals) (s : Script) : RunResult :=
  let r := runBody g s
  match r.exit with
  | Exit.threw (Exn.interprocess code) =>
    if code ≠ 1 then r else { r with exit := Exit.returned }
  | _ => r

/-- The two specializations `main` can build. -/
inductive BufferKind where
  | FrameBuffer
  | TokenBufferPosition2D
deriving Repr, DecidableEq

/-- The table `type_hash`. -/
def type_hash : List (String × Char) := [("frame", 'a'), ("pos2D", 'b')]

/-- The lookup `type_hash[type]`: a key that is not in the table gives the
value-initialized `char`. -/
def type_hash_at (type : String) : Char :=
  (type_hash.lookup type).getD (Char.ofNat 0)

/-- The variables map after `po::store` and `po::notify`: which options were
given on the command line. -/
structure VariablesMap where
  help : Bool
  version : Bool
  type : Option String
  source : Option String
  sink : Option String
deriving Repr, DecidableEq

/-- How the option parsing ends. -/
inductive Parse where
  | parsed (vm : VariablesMap)
  | stdException (what : String)
  | unknownException
deriving Repr, DecidableEq

/-- What `main` writes: the usage text, an `oat::Error`, a `whoMessage`, a
`whoError`, plain text. -/
inductive Output where
  | usage
  | error (msg : String)
  | whoMessage (msg : String)
  | whoError (msg : String)
  | text (msg : String)
deriving Repr, DecidableEq

/-- How the process ends: `main` returns a code, an exception escapes `main`,
or the run loop is still going. -/
inductive MainExit where
  | exited (code : Int)
  | terminated
  | running
deriving Repr, DecidableEq

/-- What `main` did. -/
structure MainResult where
  exit : MainExit
  output : List Output
  built : Option BufferKind
  run : Option RunResult
deriving Repr, DecidableEq

/-- `main` returning `code` before any buffer is built. -/
def earlyReturn (code : Int) (output : List Output) : MainResult :=
  { exit := MainExit.exited code, output := output, built := none, run := none }

/-- The first `try` block of `main`: a result when `main` returns from it, and
otherwise the values of `type`, `source` and `sink`. -/
def parseOptions : Parse → MainResult ⊕ (String × String × String)
  | Parse.stdException what => Sum.inl (earlyReturn (-1) [Output.error what])
  | Parse.unknownException =>
    Sum.inl (earlyReturn (-1) [Output.error "Exception of unknown type.\n"])
  | Parse.parsed vm =>
    if vm.help then Sum.inl (earlyReturn 0 [Output.usage])
    else if vm.version then Sum.inl (earlyReturn 0 [Output.text "Oat Buffer version"])
    else
      match vm.type with
      | none =>
        Sum.inl (earlyReturn (-1) [Output.usage, Output.error "A TYPE must be specified.\n"])
      | some type =>
        match vm.source with
        | none =>
          Sum.inl (earlyReturn (-1) [Output.usage, Output.error "A SOURCE must be specified.\n"])
        | some source =>
          match vm.sink with
          | none =>
            Sum.inl
              (earlyReturn (-1) [Output.usage, Output.error "A SINK name must be specified.\n"])
          | some sink => Sum.inr (type, source, sink)

/-- The `switch (type_hash[type])` of `main`. -/
def selectKind (type : String) : Option BufferKind :=
  if type_hash_at type = 'a' then some BufferKind.FrameBuffer
  else if type_hash_at type = 'b' then some BufferKind.TokenBufferPosition2D
  else none

/-- The last `try` block of `main`, "the business", for a buffer of kind
`kind`. -/
def business (kind : BufferKind) (source sink : String) (g : Globals) (s : Script) :
    MainResult :=
  let told :=
    [Output.whoMessage ("Listening to source " ++ source ++ ".\n"),
     Output.whoMessage ("Steaming to sink " ++ sink ++ ".\n"),
     Output.whoMessage "Press CTRL+C to exit.\n"]
  let r := run g s
  match r.exit with
  | Exit.returned =>
    { exit := MainExit.exited 0, output := told ++ [Output.whoMessage "Exiting.\n"],
      built := some kind, run := some r }
  | Exit.threw (Exn.runtime_error what) =>
    { exit := MainExit.exited (-1), output := told ++ [Output.whoError what],
      built := some kind, run := some r }
  | Exit.threw (Exn.cvException what) =>
    { exit := MainExit.exited (-1), output := told ++ [Output.whoError what],
      built := some kind, run := some r }
  | Exit.threw _ =>
    { exit := MainExit.exited (-1), output := told ++ [Output.whoError "Unknown exception.\n"],
      built := some kind, run := some r }
  | Exit.running =>
    { exit := MainExit.running, output := told, built := some kind, run := some r }

/-- `main`.  `earlySigint` says whether SIGINT arrives between the
installation of the handler and the call of `run`; `construct` is the outcome
of the buffer's constructor, which runs outside every `try` block. -/
def main (earlySigint : Bool) (parse : Parse) (construct : Outcome Unit) (s : Script) :
    MainResult :=
  match parseOptions parse with
  | Sum.inl result => result
  | Sum.inr (type, source, sink) =>
    match selectKind type with
    | none => earlyReturn (-1) [Output.usage, Output.error "Invalid TYPE specified.\n"]
    | some kind =>
      match construct with
      | Outcome.throws _ =>
        { exit := MainExit.terminated, output := [], built := none, run := none }
      | Outcome.returns () =>
        business kind source sink (deliver earlySigint Globals.initial) s

/-- A command line that gives TYPE, SOURCE and SINK and asks for neither the
help text nor the version. -/
def commandLine (type source sink : String) : Parse :=
  Parse.parsed
    { help := false, version := false, type := some type, source := some source,
      sink := some sink }

end Buffer

namespace Viewer

/-! ## `src/frameviewer/Viewer.cpp` -/

/-- What the world does during one call of `Viewer::showImage`:
`getSharedMat` is the outcome of `frame_source.getSharedMat(current_frame)`,
`elapsed` says whether `duration > min_update_period`, `imshow`, `waitKey` and
`imwrite` are the outcomes of the three OpenCV calls (`imwrite` with the
`makeFileName()` it is given), and `sourceRunState` is what
`frame_source.getSourceRunState()` gives at the end of the call. -/
structure World where
  getSharedMat : Outcome Bool
  elapsed : Bool
  imshow : Outcome Unit
  waitKey : Outcome Int
  imwrite : Outcome Unit
  sourceRunState : RunState
deriving Repr, DecidableEq

/-- What one call of `showImage` did. -/
structure Shown where
  result : Outcome Bool
  displayed : Bool
  saved : Bool
  logged : Option String
deriving Repr, DecidableEq

/-- The `char command = cv::waitKey(1)` compared with the letter s: the key
code is cut down to its low eight bits. -/
def isSaveCommand (key : Int) : Bool := key % 256 == ('s').toNat

/-- The body of the `try` block of `showImage`: whether the frame was
displayed, whether a snapshot was written, and the exception that ended the
block, if one did. -/
def showBlock (w : World) : Bool × Bool × Option Exn :=
  match w.imshow with
  | Outcome.throws e => (false, false, some e)
  | Outcome.returns () =>
    match w.waitKey with
    | Outcome.throws e => (true, false, some e)
    | Outcome.returns key =>
      if isSaveCommand key then
        match w.imwrite with
        | Outcome.throws e => (true, false, some e)
        | Outcome.returns () => (true, true, none)
      else (true, false, none)

/-- The last statement of `showImage`:
`return (frame_source.getSourceRunState() == oat::ServerRunState::END)`. -/
def atEnd (w : World) : Bool := decide (w.sourceRunState = RunState.END)

/-- `Viewer::showImage(title)`. -/
def showImage (w : World) : Shown :=
  match w.getSharedMat with
  | Outcome.throws e => { result := Outcome.throws e, displayed := false, saved := false,
                          logged := none }
  | Outcome.returns false =>
    { result := Outcome.returns (atEnd w), displayed := false, saved := false, logged := none }
  | Outcome.returns true =>
    if w.elapsed then
      match showBlock w with
      | (displayed, saved, none) =>
        { result := Outcome.returns (atEnd w), displayed := displayed, saved := saved,
          logged := none }
      | (displayed, saved, some (Exn.cvException what)) =>
        { result := Outcome.returns (atEnd w), displayed := displayed, saved := saved,
          logged := some what }
      | (displayed, saved, some e) =>
        { result := Outcome.throws e, displayed := displayed, saved := saved, logged := none }
    else
      { result := Outcome.returns (atEnd w), displayed := false, saved := false, logged := none }

/-- No call made by `showImage` throws anything but a `cv::Exception`, and
`getSharedMat` does not throw. -/
def World.onlyCvExceptions (w : World) : Prop :=
  (∃ got, w.getSharedMat = Outcome.returns got) ∧
  (∀ e, w.imshow = Outcome.throws e → ∃ what, e = Exn.cvException what) ∧
  (∀ e, w.waitKey = Outcome.throws e → ∃ what, e = Exn.cvException what) ∧
  (∀ e, w.imwrite = Outcome.throws e → ∃ what, e = Exn.cvException what)

end Viewer

namespace PlanarMultiLedDetector

/-! ## `src/positiondetector/PlanarMultiLedDetector.cpp`, `configure` -/

/-- The members of the detector that `configure` touches.  The areas are
`double`s; they are taken as rationals, which is exact for every finite
`double` (comparison of finite doubles is comparison of their values). -/
structure Detector where
  t_min_ : Int
  t_max_ : Int
  erode_on_ : Bool
  erode_px_ : Int
  dilate_on_ : Bool
  dilate_px_ : Int
  mincomp_on_ : Bool
  mincomp_val_ : Int
  min_object_area_ : ℚ
  max_object_area_ : ℚ
  dummy0_ : Int
  dummy1_ : Int
  tuning_on_ : Bool
deriving DecidableEq

/-- What a helper of `oat::config` does for one key: it returns false (`absent`),
returns true after filling in the value (`found`), or throws (`fails`). -/
inductive Lookup (α : Type) where
  | absent
  | found (value : α)
  | fails (what : String)
deriving DecidableEq

/-- The options as the helpers of `oat::config` hand them to `configure`:
`table` is the failure of `getConfigTable` or `checkKeys`, if there is one. -/
structure Options where
  table : Option String
  thresh : Lookup (Int × Int)
  erode : Lookup Int
  dilate : Lookup Int
  mincomp : Lookup Int
  area : Lookup (ℚ × ℚ)
  tune : Lookup Bool
deriving DecidableEq

/-- What leaves `configure` as an exception: a `std::runtime_error` thrown by
`configure` itself, or the exception of a helper. -/
inductive Raised where
  | runtime_error (what : String)
  | helper (what : String)
deriving Repr, DecidableEq

/-- `set_erode_size`. -/
def set_erode_size (d : Detector) (value : Int) : Detector :=
  if value > 0 then { d with erode_on_ := true, erode_px_ := value }
  else { d with erode_on_ := false }

/-- `set_dilate_size`. -/
def set_dilate_size (d : Detector) (value : Int) : Detector :=
  if value > 0 then { d with dilate_on_ := true, dilate_px_ := value }
  else { d with dilate_on_ := false }

/-- `set_mincomp_size`. -/
def set_mincomp_size (d : Detector) (value : Int) : Detector :=
  if value ≠ 0 then { d with mincomp_on_ := true, mincomp_val_ := value }
  else { d with mincomp_on_ := false }

/-- Conversion of a `double` to `int`: the fractional part is dropped. -/
def truncate (q : ℚ) : Int := if 0 ≤ q then ⌊q⌋ else ⌈q⌉

/-- The threshold block of `configure`. -/
def configureThresh (d : Detector) : Lookup (Int × Int) → Detector × Option Raised
  | Lookup.absent => (d, none)
  | Lookup.fails what => (d, some (Raised.helper what))
  | Lookup.found t =>
    let d1 := { d with t_min_ := t.1, t_max_ := t.2 }
    if d1.t_min_ < 0 ∨ d1.t_min_ > 256 ∨ d1.t_max_ < 0 ∨ d1.t_max_ > 256 then
      (d1, some (Raised.runtime_error "Values of thresh should be between 0 and 256."))
    else (d1, none)

/-- One of the three blocks of `configure` that read an `int` and pass it to a
setter. -/
def configureSize (set : Detector → Int → Detector) (d : Detector) :
    Lookup Int → Detector × Option Raised
  | Lookup.absent => (d, none)
  | Lookup.fails what => (d, some (Raised.helper what))
  | Lookup.found value => (set d value, none)

/-- The area block of `configure`. -/
def configureArea (d : Detector) : Lookup (ℚ × ℚ) → Detector × Option Raised
  | Lookup.absent => (d, none)
  | Lookup.fails what => (d, some (Raised.helper what))
  | Lookup.found area =>
    let d1 := { d with min_object_area_ := area.1, max_object_area_ := area.2 }
    let d2 := { d1 with dummy0_ := truncate d1.min_object_area_,
                        dummy1_ := truncate d1.max_object_area_ }
    if d2.min_object_area_ ≥ d2.max_object_area_ then
      (d2, some (Raised.runtime_error "Max area should be larger than min area."))
    else (d2, none)

/-- The last statement of `configure`, `getValue<bool>(…, "tune", tuning_on_)`. -/
def configureTune (d : Detector) : Lookup Bool → Detector × Option Raised
  | Lookup.absent => (d, none)
  | Lookup.fails what => (d, some (Raised.helper what))
  | Lookup.found value => ({ d with tuning_on_ := value }, none)

/-- Runs `next` unless an exception has already left `configure`. -/
def andThen (r : Detector × Option Raised) (next : Detector → Detector × Option Raised) :
    Detector × Option Raised :=
  match r.2 with
  | some raised => (r.1, some raised)
  | none => next r.1

/-- `PlanarMultiLedDetector::configure`: the detector as `configure` leaves it
and the exception that ended it, if one did. -/
def configure (d : Detector) (o : Options) : Detector × Option Raised :=
  match o.table with
  | some what => (d, some (Raised.helper what))
  | none =>
    andThen (andThen (andThen (andThen (andThen
      (configureThresh d o.thresh)
      (fun d1 => configureSize set_erode_size d1 o.erode))
      (fun d2 => configureSize set_dilate_size d2 o.dilate))
      (fun d3 => configureSize set_mincomp_size d3 o.mincomp))
      (fun d4 => configureArea d4 o.area))
      (fun d5 => configureTune d5 o.tune)

/-- A detector as the constructor leaves it, with the members the constructor
does not set taken as 0. -/
def Detector.fresh : Detector :=
  set_mincomp_size (set_dilate_size (set_erode_size
    { t_min_ := 0, t_max_ := 0, erode_on_ := false, erode_px_ := 0, dilate_on_ := false,
      dilate_px_ := 0, mincomp_on_ := false, mincomp_val_ := 0, min_object_area_ := 0,
      max_object_area_ := 0, dummy0_ := 0, dummy1_ := 0, tuning_on_ := false } 0) 0) 0

/-- Options with nothing given. -/
def Options.none : Options :=
  { table := Option.none, thresh := Lookup.absent, erode := Lookup.absent,
    dilate := Lookup.absent, mincomp := Lookup.absent, area := Lookup.absent,
    tune := Lookup.absent }

end PlanarMultiLedDetector

/-! ## Predicates used in the statements -/

/-- The buffer fed `xs`, after the schedule `sched`. -/
def fed {α : Type} (xs : List α) (capacity : Option Nat) (sched : List Task) : BufferState α :=
  runSchedule (BufferState.init xs capacity) sched

/-- The writer's role state and the header agree: a header that says `END`
belongs to a writer that has ended. -/
def Exchange.Consistent {α : Type} (w : Exchange α) : Prop :=
  ∀ seg, w.segment = some seg → seg.header.run_state = RunState.END →
    w.server = ServerState.ENDED

/-- The exchanges that a sequence of operations can produce from nothing. -/
def Exchange.reached {α : Type} (ops : List (Op α)) : Exchange α :=
  Exchange.applyAll Exchange.unbound ops

namespace Buffer

/-- The condition under which the loop of `run` reaches the push after the
pushes `pre`: no flag set on entry, `connectToNode` returned with no SIGINT,
and each push of `pre` returned false with no SIGINT. -/
def Reaches (g : Globals) (connect : Call Unit) (pre : List (Call Bool)) : Prop :=
  g.quit = 0 ∧ g.source_eof = 0 ∧
  connect = { sigint := false, outcome := Outcome.returns () } ∧
  ∀ p ∈ pre, p = { sigint := false, outcome := Outcome.returns false }

/-- The `try` block of `run` ends by stream exhaustion: the loop is left with
`source_eof` set by a push. -/
def EndsByEof (g : Globals) (s : Script) : Prop :=
  (runBody g s).exit = Exit.returned ∧ (runBody g s).globals.source_eof ≠ 0

/-- The `try` block of `run` ends because the interrupt flag is set. -/
def EndsByQuit (g : Globals) (s : Script) : Prop :=
  (runBody g s).exit = Exit.returned ∧ (runBody g s).globals.quit ≠ 0

/-- The `try` block of `run` ends by a wait interrupted with error code 1. -/
def EndsByInterruptedWait (g : Globals) (s : Script) : Prop :=
  (runBody g s).exit = Exit.threw (Exn.interprocess 1)

end Buffer

namespace PlanarMultiLedDetector

/-- The condition of the threshold check of `configure`. -/
def threshOutOfRange (min max : Int) : Prop := min < 0 ∨ min > 256 ∨ max < 0 ∨ max > 256

/-- Nothing before the area block of `configure` throws: the configuration
table is read, the thresholds are absent or in range, and the three sizes are
read without a failure. -/
def Options.reachesArea (o : Options) : Prop :=
  o.table = Option.none ∧
  (o.thresh = Lookup.absent ∨
    ∃ min max, o.thresh = Lookup.found (min, max) ∧ ¬ threshOutOfRange min max) ∧
  (∀ what, o.erode ≠ Lookup.fails what) ∧
  (∀ what, o.dilate ≠ Lookup.fails what) ∧
  (∀ what, o.mincomp ≠ Lookup.fails what)

end PlanarMultiLedDetector

namespace PlanarMultiLedDetector

/-! ## `src/positiondetector/PlanarMultiLedDetector.cpp`, `detectPosition` -/

/-- `cv::Point`: a point with `int` coordinates. -/
structure Point where
  x : Int
  y : Int
deriving Repr, DecidableEq

/-- `cv::Point2d`: a point with `double` coordinates, taken as rationals. -/
structure Point2d where
  x : ℚ
  y : ℚ
deriving DecidableEq

/-- The members of `oat::Position2D` that `detectPosition` writes. -/
structure Position2D where
  position_valid : Bool
  heading_valid : Bool
  position : Point2d
  heading : Point2d
deriving DecidableEq

/-- The members of `cv::Moments` that `detectPosition` reads for one contour. -/
structure Moments where
  m00 : ℚ
  m10 : ℚ
  m01 : ℚ
deriving DecidableEq

/-- `a + b` on `cv::Point`. -/
def Point.add (a b : Point) : Point := { x := a.x + b.x, y := a.y + b.y }

/-- `a - b` on `cv::Point`. -/
def Point.sub (a b : Point) : Point := { x := a.x - b.x, y := a.y - b.y }

/-- `a / b` on `cv::Point` with an `int` divisor: integer division of each
coordinate, rounding toward zero. -/
def Point.div (a : Point) (b : Int) : Point := { x := Int.tdiv a.x b, y := Int.tdiv a.y b }

/-- The `int` that `dist[k] = cv::norm(p)` stores: the square root of
`x*x + y*y` with its fractional part dropped. -/
def normInt (p : Point) : Int := Int.ofNat (Nat.sqrt (p.x * p.x + p.y * p.y).toNat)

/-- The default-constructed `cv::Point`, `(0, 0)`. -/
def Point.zero : Point := { x := 0, y := 0 }

/-- The local state of the loop over the contours: the position record, the
array `leds`, `Nmarkers`, `object_area`, and the indices used by the writes
into `leds` so far (one entry per assignment). -/
structure Scan where
  position : Position2D
  leds : List Point
  Nmarkers : Int
  object_area : ℚ
  writes : List Int
deriving DecidableEq

/-- The test `countour_area >= min_object_area_ && countour_area < max_object_area_`. -/
def inAreaRange (d : Detector) (moment : Moments) : Bool :=
  decide (moment.m00 ≥ d.min_object_area_) && decide (moment.m00 < d.max_object_area_)

/-- The two assignments `leds[i].x = x; leds[i].y = y`. -/
def writeLed (s : Scan) (i : Int) (x y : ℚ) : Scan :=
  { s with
    leds := s.leds.set i.toNat { x := truncate x, y := truncate y },
    writes := s.writes ++ [i, i] }

/-- The body of the loop `for (auto &c : contours)` for one contour.  The
centroid is `m10 / m00`, `m01 / m00`; a contour of area 0 can only be in the
range when `min_object_area_ <= 0`. -/
def scanStep (d : Detector) (s : Scan) (moment : Moments) : Scan :=
  let countour_area := moment.m00
  if inAreaRange d moment then
    let s1 : Scan :=
      { s with
        position :=
          { s.position with
            position := { x := moment.m10 / countour_area, y := moment.m01 / countour_area } } }
    let s2 : Scan :=
      if s1.Nmarkers ≤ 2 then
        writeLed s1 s1.Nmarkers s1.position.position.x s1.position.position.y
      else s1
    { s2 with Nmarkers := s2.Nmarkers + 1, object_area := countour_area }
  else s

/-- The state before the loop: `position.position_valid = false`, `leds`
default-constructed, `Nmarkers = 0`, `object_area = 0`. -/
def scanStart (position : Position2D) : Scan :=
  { position := { position with position_valid := false },
    leds := [Point.zero, Point.zero, Point.zero],
    Nmarkers := 0, object_area := 0, writes := [] }

/-- The loop over the contours. -/
def scan (d : Detector) (contours : List Moments) (position : Position2D) : Scan :=
  contours.foldl (scanStep d) (scanStart position)

/-- The block that follows `if (Nmarkers==3)`, from `int dist[3]` to the third
`if`: the values of `midpoint` and `heading` for the three markers. -/
def midpointAndHeading (leds0 leds1 leds2 : Point) : Point × Point :=
  let dist0 := normInt (leds1.sub leds2)
  let dist1 := normInt (leds0.sub leds2)
  let dist2 := normInt (leds0.sub leds1)
  let r0 : Point × Point := (Point.zero, Point.zero)
  let r1 : Point × Point :=
    if dist0 < dist1 ∧ dist0 < dist2 then
      ((leds1.add leds2).div 2, leds0.sub ((leds1.add leds2).div 2))
    else r0
  let r2 : Point × Point :=
    if dist1 < dist0 ∧ dist1 < dist2 then
      ((leds0.add leds2).div 2, leds1.sub ((leds0.add leds2).div 2))
    else r1
  if dist2 < dist1 ∧ dist2 < dist0 then
    ((leds1.add leds0).div 2, leds2.sub ((leds1.add leds0).div 2))
  else r2

/-- What `detectPosition` leaves behind: the position record, the member
`object_area_`, and from the loop the final `Nmarkers`, the array `leds` and
the indices of the writes into it. -/
structure Detection where
  position : Position2D
  object_area_ : ℚ
  Nmarkers : Int
  leds : List Point
  writes : List Int
deriving DecidableEq

/-- `PlanarMultiLedDetector::detectPosition`, from the contours that
`cv::findContours` gives (the thresholding and the tuning window are left
out). -/
def detectPosition (d : Detector) (contours : List Moments) (position : Position2D) :
    Detection :=
  let s := scan d contours position
  let reported : Position2D :=
    if s.Nmarkers = 3 then
      let mh := midpointAndHeading (s.leds.getD 0 Point.zero) (s.leds.getD 1 Point.zero)
        (s.leds.getD 2 Point.zero)
      { position_valid := true, heading_valid := true,
        position := { x := mh.1.x, y := mh.1.y },
        heading := { x := mh.2.x, y := mh.2.y } }
    else s.position
  { position := reported, object_area_ := s.object_area, Nmarkers := s.Nmarkers,
    leds := s.leds, writes := s.writes }

/-- The contours whose area is in the range. -/
def markers (d : Detector) (contours : List Moments) : List Moments :=
  contours.filter (inAreaRange d)

/-- A contour with the given area and centroid. -/
def blob (area cx cy : ℚ) : Moments := { m00 := area, m10 := area * cx, m01 := area * cy }

/-- A detector that takes areas from `min` up to `max`. -/
def Detector.withAreas (min max : ℚ) : Detector :=
  { Detector.fresh with min_object_area_ := min, max_object_area_ := max }

/-- The invariant of the loop over the contours: `Nmarkers` is not negative,
`leds` keeps its three elements, every write so far used an index from 0 to 2,
and there were two writes for each of the first three markers counted. -/
def ScanInv (s : Scan) : Prop :=
  0 ≤ s.Nmarkers ∧ s.leds.length = 3 ∧
  (∀ i ∈ s.writes, i = 0 ∨ i = 1 ∨ i = 2) ∧
  s.writes.length = 2 * min s.Nmarkers.toNat 3

/-- A position record with nothing valid. -/
def Position2D.blank : Position2D :=
  { position_valid := false, heading_valid := false, position := { x := 0, y := 0 },
    heading := { x := 0, y := 0 } }

end PlanarMultiLedDetector

namespace Viewer

/-- The character of the decimal digit `d`. -/
def digitChar (d : Nat) : Char := Char.ofNat (48 + d)

/-- `std::to_string` of a number of clients: its decimal digits, most
significant first, and the single digit 0 for zero. -/
def to_string (n : Nat) : String :=
  if n = 0 then "0" else String.mk ((Nat.digits 10 n).reverse.map digitChar)

/-- The member `name` as the constructor `Viewer::Viewer` leaves it:
`"viewer[" + frame_source_name + "]"` followed by the number of clients of the
frame source. -/
def name (frame_source_name : String) (number_of_clients : Nat) : String :=
  ("viewer[" ++ frame_source_name ++ "]") ++ to_string number_of_clients

end Viewer

/-! ## Theorems: the buffer and its two loops -/

theorem bufferInv_init {α : Type} (xs : List α) (cap : Option Nat) :
    BufferInv xs cap (BufferState.init xs cap) := by
  simp [BufferInv, BufferState.init]

theorem bufferInv_intakeStep {α : Type} {xs : List α} {cap : Option Nat}
    {s : BufferState α} (h : BufferInv xs cap s) : BufferInv xs cap (intakeStep s) := by
  obtain ⟨h1, h2, h3, h4, h5⟩ := h
  unfold intakeStep
  split
  · exact ⟨h1, h2, h3, h4, h5⟩
  · rename_i hfin
    split
    · rename_i hup
      refine ⟨h1, h2, ?_, ?_, h5⟩
      · intro _; exact hup
      · intro hd; exact absurd (h4 hd).2 hfin
    · rename_i x rest hup
      split
      · refine ⟨?_, h2, ?_, ?_, h5⟩
        · simpa [hup] using h1
        · intro hf; exact absurd hf hfin
        · intro hd; exact absurd (h4 hd).2 hfin
      · exact ⟨h1, h2, h3, h4, h5⟩

theorem bufferInv_drainStep {α : Type} {xs : List α} {cap : Option Nat}
    {s : BufferState α} (h : BufferInv xs cap s) : BufferInv xs cap (drainStep s) := by
  obtain ⟨h1, h2, h3, h4, h5⟩ := h
  unfold drainStep
  split
  · exact ⟨h1, h2, h3, h4, h5⟩
  · rename_i hstop
    split
    · rename_i x rest hf
      refine ⟨?_, h2, h3, ?_, ?_⟩
      · simpa [hf] using h1
      · intro hd; exact absurd hd hstop
      · simpa using h5
    · rename_i hf
      split
      · rename_i hfin
        refine ⟨h1, h2, h3, ?_, ?_⟩
        · intro _; exact ⟨hf, hfin⟩
        · simp [h5, hstop]
      · exact ⟨h1, h2, h3, h4, h5⟩

theorem bufferInv_runSchedule {α : Type} {xs : List α} {cap : Option Nat}
    (sched : List Task) :
    ∀ s : BufferState α, BufferInv xs cap s → BufferInv xs cap (runSchedule s sched) := by
  induction sched with
  | nil => intro s h; exact h
  | cons t rest ih =>
    intro s h
    have hs : BufferInv xs cap (bufferStep s t) := by
      cases t
      · exact bufferInv_intakeStep h
      · exact bufferInv_drainStep h
    exact ih _ hs

theorem drainStopped_intakeStep {α : Type} (s : BufferState α) :
    (intakeStep s).drainStopped = s.drainStopped := by
  unfold intakeStep
  split
  · rfl
  · split
    · rfl
    · split <;> rfl

theorem drainStopped_bufferStep {α : Type} (s : BufferState α) (t : Task)
    (h : s.drainStopped = true) : (bufferStep s t).drainStopped = true := by
  cases t
  · simpa [bufferStep, drainStopped_intakeStep] using h
  · simp [bufferStep, drainStep, h]

theorem drainStopped_runSchedule {α : Type} (sched : List Task) :
    ∀ s : BufferState α, s.drainStopped = true → (runSchedule s sched).drainStopped = true := by
  induction sched with
  | nil => intro s h; exact h
  | cons t rest ih => intro s h; exact ih _ (drainStopped_bufferStep s t h)

theorem runSchedule_append {α : Type} (s : BufferState α) (a b : List Task) :
    runSchedule s (a ++ b) = runSchedule (runSchedule s a) b := by
  simp [runSchedule, List.foldl_append]

/-- Under the invariant the work left is bounded by the length of the input. -/
theorem bufferMeasure_le {α : Type} {xs : List α} {cap : Option Nat} {s : BufferState α}
    (h : BufferInv xs cap s) : bufferMeasure s ≤ 2 * xs.length + 2 := by
  obtain ⟨h1, -, -, -, -⟩ := h
  have hlen : s.downstream.length + s.fifo.length + s.upstream.length = xs.length := by
    rw [← h1]; simp [Nat.add_assoc]
  unfold bufferMeasure
  split <;> split <;> omega

/-- A state with no work left has stopped. -/
theorem drainStopped_of_measure_zero {α : Type} {s : BufferState α}
    (h : bufferMeasure s = 0) : s.drainStopped = true := by
  unfold bufferMeasure at h
  by_cases hd : s.drainStopped = true
  · exact hd
  · simp [hd] at h

/-- One round (the drain loop, then the intake loop) either finds the buffer
stopped or leaves less work. -/
theorem round_progress {α : Type} {xs : List α} {cap : Option Nat} {s : BufferState α}
    (h : BufferInv xs cap s) (hcap : cap ≠ some 0) (hrun : s.drainStopped = false) :
    bufferMeasure (intakeStep (drainStep s)) < bufferMeasure s := by
  obtain ⟨h1, h2, h3, h4, h5⟩ := h
  cases hf : s.fifo with
  | cons x rest =>
    have hd : drainStep s = { s with fifo := rest, downstream := s.downstream ++ [x] } := by
      simp [drainStep, hrun, hf]
    rw [hd]
    unfold intakeStep
    split
    · simp [bufferMeasure, hf, hrun]
    · split
      · rename_i hup
        simp only at hup
        simp [bufferMeasure, hf, hrun, hup]
        split <;> omega
      · rename_i y ys hup
        simp only at hup
        split
        · simp [bufferMeasure, hf, hrun, hup]
        · simp [bufferMeasure, hf, hrun, hup]
  | nil =>
    cases hfin : s.intakeFinished with
    | true =>
      have hd : drainStep s =
          { s with drainStopped := true, signalEndCalls := s.signalEndCalls + 1 } := by
        simp [drainStep, hrun, hf, hfin]
      rw [hd]
      simp [intakeStep, hfin, bufferMeasure, hrun, hf]
    | false =>
      have hd : drainStep s = s := by
        simp [drainStep, hrun, hf, hfin]
      rw [hd]
      cases hup : s.upstream with
      | nil => simp [intakeStep, hfin, hup, bufferMeasure, hrun, hf]
      | cons y ys =>
        have hroom : s.hasRoom = true := by
          unfold BufferState.hasRoom
          rw [h2]
          cases cap with
          | none => rfl
          | some c =>
            have : c ≠ 0 := fun hc => hcap (by rw [hc])
            simp [hf]; omega
        simp [intakeStep, hfin, hup, hroom, bufferMeasure, hrun, hf]
        omega

/-- Enough rounds stop the buffer. -/
theorem fairRounds_stops {α : Type} {xs : List α} {cap : Option Nat} (hcap : cap ≠ some 0)
    (n : Nat) : ∀ s : BufferState α, BufferInv xs cap s → bufferMeasure s ≤ n →
      (runSchedule s (fairRounds n)).drainStopped = true := by
  induction n with
  | zero =>
    intro s _ hm
    exact drainStopped_of_measure_zero (Nat.le_zero.mp hm)
  | succ n ih =>
    intro s hinv hm
    have hstep : runSchedule s (fairRounds (n + 1)) =
        runSchedule (intakeStep (drainStep s)) (fairRounds n) := by
      simp [fairRounds, runSchedule, bufferStep]
    rw [hstep]
    have hinv1 : BufferInv xs cap (intakeStep (drainStep s)) :=
      bufferInv_intakeStep (bufferInv_drainStep hinv)
    cases hd : s.drainStopped with
    | true =>
      have h1 : (intakeStep (drainStep s)).drainStopped = true := by
        rw [drainStopped_intakeStep]; simp [drainStep, hd]
      exact drainStopped_runSchedule _ _ h1
    | false =>
      have := round_progress hinv hcap hd
      exact ih _ hinv1 (by omega)

/-- What the invariant says about a buffer that has stopped. -/
theorem stopped_spec {α : Type} {xs : List α} {cap : Option Nat} {s : BufferState α}
    (h : BufferInv xs cap s) (hd : s.drainStopped = true) :
    s.downstream = xs ∧ s.signalEndCalls = 1 := by
  obtain ⟨h1, -, h3, h4, h5⟩ := h
  obtain ⟨hf, hfin⟩ := h4 hd
  refine ⟨?_, by simp [h5, hd]⟩
  simpa [hf, h3 hfin] using h1

/-- C1: a Buffer fed the samples `xs` and then the end of the upstream forwards
exactly `xs` downstream, in order, and then calls `signalEnd()` once.  Under
every schedule of the two loops what has been published is a prefix of `xs`,
`signalEnd()` has been called at most once and only after all of `xs` was
published; and once the loops have been given `2 * xs.length + 2` further
rounds the buffer has stopped with `downstream = xs` and one call of
`signalEnd()`, whatever is scheduled afterwards. -/
theorem buffer_forwards_in_order {α : Type} (xs : List α) (cap : Option Nat)
    (hcap : cap ≠ some 0) (sched more : List Task) :
    (fed xs cap sched).downstream <+: xs ∧
    (fed xs cap sched).signalEndCalls ≤ 1 ∧
    ((fed xs cap sched).signalEndCalls = 1 → (fed xs cap sched).downstream = xs) ∧
    (fed xs cap (sched ++ fairRounds (2 * xs.length + 2))).drainStopped = true ∧
    (fed xs cap (sched ++ fairRounds (2 * xs.length + 2) ++ more)).downstream = xs ∧
    (fed xs cap (sched ++ fairRounds (2 * xs.length + 2) ++ more)).downstream.length
      = xs.length ∧
    (fed xs cap (sched ++ fairRounds (2 * xs.length + 2) ++ more)).signalEndCalls = 1 := by
  have hinv : ∀ l : List Task, BufferInv xs cap (fed xs cap l) := fun l =>
    bufferInv_runSchedule l _ (bufferInv_init xs cap)
  have hstop : (fed xs cap (sched ++ fairRounds (2 * xs.length + 2))).drainStopped = true := by
    unfold fed
    rw [runSchedule_append]
    exact fairRounds_stops hcap _ _ (hinv sched) (bufferMeasure_le (hinv sched))
  have hstop2 :
      (fed xs cap (sched ++ fairRounds (2 * xs.length + 2) ++ more)).drainStopped = true := by
    unfold fed
    rw [runSchedule_append]
    exact drainStopped_runSchedule _ _ hstop
  have hfinal := stopped_spec (hinv _) hstop2
  refine ⟨?_, ?_, ?_, hstop, hfinal.1, by rw [hfinal.1], hfinal.2⟩
  · obtain ⟨h1, -, -, -, -⟩ := hinv sched
    exact ⟨(fed xs cap sched).fifo ++ (fed xs cap sched).upstream, by
      rw [← List.append_assoc]; exact h1⟩
  · obtain ⟨-, -, -, -, h5⟩ := hinv sched
    rw [h5]; split <;> omega
  · intro h1
    have hd : (fed xs cap sched).drainStopped = true := by
      obtain ⟨-, -, -, -, h5⟩ := hinv sched
      by_cases hd : (fed xs cap sched).drainStopped = true
      · exact hd
      · rw [h5] at h1; simp [hd] at h1
    exact (stopped_spec (hinv sched) hd).1

/-- C1, at a concrete input: three samples through a queue of capacity one. -/
theorem buffer_forwards_in_order_witness :
    (some 1 : Option Nat) ≠ some 0 ∧
    (fed [10, 20, 30] (some 1)
      ([Task.intake, Task.intake, Task.drain] ++ fairRounds (2 * [10, 20, 30].length + 2)
        ++ [Task.drain, Task.intake])).downstream = [10, 20, 30] ∧
    (fed [10, 20, 30] (some 1)
      ([Task.intake, Task.intake, Task.drain] ++ fairRounds (2 * [10, 20, 30].length + 2)
        ++ [Task.drain, Task.intake])).signalEndCalls = 1 :=
  ⟨by decide,
   (buffer_forwards_in_order [10, 20, 30] (some 1) (by decide)
      [Task.intake, Task.intake, Task.drain] [Task.drain, Task.intake]).2.2.2.2.1,
   (buffer_forwards_in_order [10, 20, 30] (some 1) (by decide)
      [Task.intake, Task.intake, Task.drain] [Task.drain, Task.intake]).2.2.2.2.2.2⟩

/-! ## Theorems: the run state -/

theorem consistent_unbound {α : Type} : (Exchange.unbound : Exchange α).Consistent := by
  intro seg h; simp [Exchange.unbound] at h

theorem consistent_apply {α : Type} (w : Exchange α) (op : Op α) (h : w.Consistent) :
    (w.apply op).Consistent := by
  unfold Exchange.Consistent at h ⊢
  obtain ⟨server, segment, linked⟩ := w
  cases op <;> cases server <;> cases segment <;>
    simp_all [Exchange.apply, Exchange.step, bind, publish, signalEnd, close, attach, detach]

theorem consistent_applyAll {α : Type} (ops : List (Op α)) :
    ∀ w : Exchange α, w.Consistent → (w.applyAll ops).Consistent := by
  induction ops with
  | nil => intro w h; exact h
  | cons op rest ih => intro w h; exact ih _ (consistent_apply w op h)

/-- One operation on a consistent exchange does not move the run state
backwards and does not leave `END`. -/
theorem runState_apply {α : Type} (w : Exchange α) (op : Op α) (h : w.Consistent)
    (r : RunState) (hr : w.runState = some r) :
    ∃ r1, (w.apply op).runState = some r1 ∧ r.rank ≤ r1.rank ∧
      (r = RunState.END → r1 = RunState.END) := by
  unfold Exchange.Consistent at h
  obtain ⟨server, segment, linked⟩ := w
  cases segment with
  | none => simp [Exchange.runState] at hr
  | some seg =>
    simp only [Exchange.runState, Option.map_some', Option.some.injEq] at hr
    have hc := h seg rfl
    simp only at hc
    cases op <;> cases server <;> cases r <;>
      simp_all [Exchange.apply, Exchange.step, bind, publish, signalEnd, close, attach, detach,
        Exchange.runState, RunState.rank]

theorem runState_applyAll {α : Type} (more : List (Op α)) :
    ∀ (w : Exchange α), w.Consistent → ∀ r, w.runState = some r →
      ∃ r1, (w.applyAll more).runState = some r1 ∧ r.rank ≤ r1.rank ∧
        (r = RunState.END → r1 = RunState.END) := by
  induction more with
  | nil => intro w _ r hr; exact ⟨r, hr, Nat.le_refl _, fun h => h⟩
  | cons op rest ih =>
    intro w hw r hr
    obtain ⟨r1, h1, hle1, hend1⟩ := runState_apply w op hw r hr
    obtain ⟨r2, h2, hle2, hend2⟩ := ih (w.apply op) (consistent_apply w op hw) r1 h1
    exact ⟨r2, h2, Nat.le_trans hle1 hle2, fun h => hend2 (hend1 h)⟩

/-- A read on a segment whose run state is `END` reports end of stream. -/
theorem read_of_END {α : Type} (w : Exchange α) (h : w.runState = some RunState.END)
    (lastSeen : Nat) : w.read lastSeen = some (ReadResult.EndOfStream, lastSeen) := by
  obtain ⟨server, segment, linked⟩ := w
  cases segment with
  | none => simp [Exchange.runState] at h
  | some seg =>
    simp only [Exchange.runState, Option.map_some', Option.some.injEq] at h
    simp [Exchange.read, clientRead, h]

/-- C2: the run state of a segment only moves `INIT → RUNNING → END`.  In every
state that the operations `bind`, `publish`, `signalEnd`, `close`, `attach`
and `detach` can reach, with the segment's run state `r`, every further
sequence of operations leaves a run state that is not before `r`; `signalEnd`
makes it `END`; and once it is `END` it stays `END`, so that a read by any
client (whatever it has seen so far) reports end of stream instead of
waiting. -/
theorem run_state_only_moves_forward {α : Type} (ops more : List (Op α)) (r : RunState)
    (h : (Exchange.reached ops).runState = some r) :
    (∃ r1, ((Exchange.reached ops).applyAll more).runState = some r1 ∧ r.rank ≤ r1.rank ∧
      (r = RunState.END →
        r1 = RunState.END ∧
        ∀ lastSeen : Nat, ((Exchange.reached ops).applyAll more).read lastSeen
          = some (ReadResult.EndOfStream, lastSeen))) ∧
    (∀ lastSeen : Nat,
      (((Exchange.reached ops).apply Op.signalEnd).applyAll more).read lastSeen
        = some (ReadResult.EndOfStream, lastSeen)) := by
  have hc : (Exchange.reached ops).Consistent :=
    consistent_applyAll ops _ consistent_unbound
  constructor
  · obtain ⟨r1, h1, hle, hend⟩ := runState_applyAll more _ hc r h
    refine ⟨r1, h1, hle, fun hr => ⟨hend hr, fun lastSeen => ?_⟩⟩
    exact read_of_END _ (by rw [h1, hend hr]) lastSeen
  · intro lastSeen
    have hc1 := consistent_apply _ (Op.signalEnd : Op α) hc
    have hs : ((Exchange.reached ops).apply Op.signalEnd).runState = some RunState.END := by
      generalize Exchange.reached ops = w at h
      obtain ⟨server, segment, linked⟩ := w
      cases segment with
      | none => simp [Exchange.runState] at h
      | some seg => simp [Exchange.apply, Exchange.step, signalEnd, Exchange.runState]
    obtain ⟨r1, h1, -, hend⟩ := runState_applyAll more _ hc1 RunState.END hs
    exact read_of_END _ (by rw [h1, hend rfl]) lastSeen

/-- C2, at a concrete input: after `bind`, two `publish` and `signalEnd`, a
further `publish`, `bind` and `attach` leave the run state `END`, and a client
that has seen nothing reads end of stream. -/
theorem run_state_only_moves_forward_witness :
    (Exchange.reached [Op.bind, Op.publish 7, Op.publish 8, Op.signalEnd]).runState
      = some RunState.END ∧
    ((Exchange.reached [Op.bind, Op.publish 7, Op.publish 8, Op.signalEnd]).applyAll
        [Op.publish 9, Op.bind, Op.attach]).read 0 = some (ReadResult.EndOfStream, 0) := by
  have h : (Exchange.reached [Op.bind, Op.publish 7, Op.publish 8, Op.signalEnd]).runState
      = some RunState.END := by decide
  refine ⟨h, ?_⟩
  obtain ⟨r1, -, -, hend⟩ :=
    (run_state_only_moves_forward [Op.bind, Op.publish 7, Op.publish 8, Op.signalEnd]
      [Op.publish 9, Op.bind, Op.attach] RunState.END h).1
  exact (hend rfl).2 0

/-! ## Theorems: `run` and `main` of the buffer -/

namespace Buffer

theorem loopCheck_iff (g : Globals) : loopCheck g = true ↔ g.quit = 0 ∧ g.source_eof = 0 := by
  simp [loopCheck]

theorem pushLoop_connects (script : List (Call Bool)) :
    ∀ (g : Globals) (n : Nat), (pushLoop g n script).connects = 1 := by
  induction script with
  | nil => intro g n; unfold pushLoop; split <;> rfl
  | cons c rest ih =>
    intro g n
    unfold pushLoop
    split
    · split
      · exact ih _ _
      · rfl
    · rfl

theorem pushLoop_pushes_ge (script : List (Call Bool)) :
    ∀ (g : Globals) (n : Nat), n ≤ (pushLoop g n script).pushes := by
  induction script with
  | nil => intro g n; unfold pushLoop; split <;> exact Nat.le_refl _
  | cons c rest ih =>
    intro g n
    unfold pushLoop
    split
    · split
      · exact Nat.le_trans (Nat.le_succ n) (ih _ _)
      · exact Nat.le_succ n
    · exact Nat.le_refl _

/-- A loop entered with the check failing makes no call. -/
theorem pushLoop_of_check_false (g : Globals) (n : Nat) (script : List (Call Bool))
    (h : loopCheck g = false) :
    pushLoop g n script = { globals := g, connects := 1, pushes := n, exit := Exit.returned } := by
  cases script <;> simp [pushLoop, h]

/-- The loop check after a call of `push` that returned `eof`. -/
theorem loopCheck_after_push (g : Globals) (hg : loopCheck g = true) (sigint eof : Bool) :
    loopCheck { deliver sigint g with source_eof := if eof then 1 else 0 } = true ↔
      sigint = false ∧ eof = false := by
  rw [loopCheck_iff] at hg
  cases sigint <;> cases eof <;> simp [loopCheck, deliver, sigHandler, hg.1]

/-- The loop reaches the call after `pre` exactly when the check holds on
entry and every call in `pre` returned false with no SIGINT delivered. -/
theorem pushLoop_reaches (pre : List (Call Bool)) (c : Call Bool) (rest : List (Call Bool)) :
    ∀ (g : Globals) (n : Nat),
      n + pre.length < (pushLoop g n (pre ++ c :: rest)).pushes ↔
        loopCheck g = true ∧
        ∀ p ∈ pre, p = { sigint := false, outcome := Outcome.returns false } := by
  induction pre with
  | nil =>
    intro g n
    cases hg : loopCheck g with
    | false => simp [pushLoop_of_check_false g n _ hg]
    | true =>
      simp only [List.nil_append, List.length_nil, Nat.add_zero, List.not_mem_nil,
        false_implies, implies_true, and_true]
      unfold pushLoop
      rw [if_pos hg]
      split
      · exact iff_of_true
          (Nat.lt_of_lt_of_le (Nat.lt_succ_self n) (pushLoop_pushes_ge _ _ _)) trivial
      · exact iff_of_true (Nat.lt_succ_self n) trivial
  | cons p pre ih =>
    intro g n
    cases hg : loopCheck g with
    | false => simp [pushLoop_of_check_false g n _ hg]
    | true =>
      obtain ⟨sigint, outcome⟩ := p
      cases outcome with
      | throws e =>
        simp [pushLoop, hg]
      | returns eof =>
        have hstep : pushLoop g n (({ sigint := sigint, outcome := Outcome.returns eof } :
              Call Bool) :: pre ++ c :: rest) =
            pushLoop { deliver sigint g with source_eof := if eof then 1 else 0 } (n + 1)
              (pre ++ c :: rest) := by
          simp [pushLoop, hg]
        rw [hstep]
        have hlen : n + (({ sigint := sigint, outcome := Outcome.returns eof } :
              Call Bool) :: pre).length = n + 1 + pre.length := by
          simp; omega
        rw [hlen, ih, loopCheck_after_push g hg]
        simp only [List.mem_cons, forall_eq_or_imp, Call.mk.injEq, Outcome.returns.injEq,
          true_and]

theorem run_connects (g : Globals) (s : Script) : (run g s).connects = 1 := by
  have hb : (runBody g s).connects = 1 := by
    unfold runBody
    split
    · exact pushLoop_connects _ _ _
    · rfl
  unfold run
  simp only
  split
  · split
    · exact hb
    · exact hb
  · exact hb

theorem run_pushes (g : Globals) (s : Script) : (run g s).pushes = (runBody g s).pushes := by
  unfold run
  simp only
  split
  · split <;> rfl
  · rfl

/-- With no interrupt, the loop stops at the first call of `push` that returns
true. -/
theorem pushLoop_first_eof (pre rest : List (Call Bool)) :
    (∀ p ∈ pre, p = { sigint := false, outcome := Outcome.returns false }) →
    ∀ n : Nat,
      pushLoop Globals.initial n
          (pre ++ { sigint := false, outcome := Outcome.returns true } :: rest) =
        { globals := { quit := 0, source_eof := 1 }, connects := 1,
          pushes := n + pre.length + 1, exit := Exit.returned } := by
  induction pre with
  | nil =>
    intro _ n
    have h1 : loopCheck { quit := 0, source_eof := 1 } = false := by decide
    simp [pushLoop, Globals.initial, loopCheck, deliver,
      pushLoop_of_check_false _ _ _ h1]
  | cons p pre ih =>
    intro hp n
    have hp0 := hp p (List.mem_cons_self _ _)
    have hrest := ih (fun q hq => hp q (List.mem_cons_of_mem _ hq)) (n + 1)
    subst hp0
    have hstep : pushLoop Globals.initial n
          (({ sigint := false, outcome := Outcome.returns false } : Call Bool) :: pre ++
            { sigint := false, outcome := Outcome.returns true } :: rest) =
        pushLoop Globals.initial (n + 1)
          (pre ++ { sigint := false, outcome := Outcome.returns true } :: rest) := by
      simp [pushLoop, Globals.initial, loopCheck, deliver]
    rw [hstep, hrest]
    simp; omega

/-- C3: `run` connects to the node once, and it starts the push after the
pushes `pre` if and only if no interrupt was requested before that loop check
(`quit` was 0 on entry and no SIGINT came during `connectToNode` or a push of
`pre`), `connectToNode` returned and no push of `pre` reported end of stream
(each returned false, `source_eof` being 0 on entry).  Hence with no interrupt
the loop makes exactly `pre.length + 1` pushes when the push after `pre` is the
first to return true, and returns; and with `quit` set on entry it makes no
push at all. -/
theorem run_pushes_while_not_quit_nor_eof (g : Globals) (connect : Call Unit)
    (pre rest script : List (Call Bool)) (c : Call Bool) :
    (run g { connectToNode := connect, push := script }).connects = 1 ∧
    (pre.length < (run g { connectToNode := connect, push := pre ++ c :: rest }).pushes ↔
      g.quit = 0 ∧ g.source_eof = 0 ∧
      connect = { sigint := false, outcome := Outcome.returns () } ∧
      ∀ p ∈ pre, p = { sigint := false, outcome := Outcome.returns false }) ∧
    ((∀ p ∈ pre, p = { sigint := false, outcome := Outcome.returns false }) →
      run Globals.initial
          { connectToNode := { sigint := false, outcome := Outcome.returns () },
            push := pre ++ { sigint := false, outcome := Outcome.returns true } :: rest } =
        { globals := { quit := 0, source_eof := 1 }, connects := 1,
          pushes := pre.length + 1, exit := Exit.returned }) ∧
    (g.quit ≠ 0 → (run g { connectToNode := connect, push := script }).pushes = 0) := by
  refine ⟨run_connects _ _, ?_, ?_, ?_⟩
  · rw [run_pushes]
    obtain ⟨sigint, outcome⟩ := connect
    cases outcome with
    | throws e => simp [runBody]
    | returns u =>
      have hp := pushLoop_reaches pre c rest (deliver sigint g) 0
      simp only [Nat.zero_add] at hp
      simp only [runBody]
      rw [hp, loopCheck_iff]
      cases sigint <;> simp [deliver, sigHandler, and_assoc]
  · intro hpre
    have h := pushLoop_first_eof pre rest hpre 0
    simp only [Nat.zero_add] at h
    simp [run, runBody, deliver, h]
  · intro hq
    rw [run_pushes]
    obtain ⟨sigint, outcome⟩ := connect
    cases outcome with
    | throws e => simp [runBody]
    | returns u =>
      have hc : loopCheck (deliver sigint g) = false := by
        cases sigint <;> simp [loopCheck, deliver, sigHandler, hq]
      simp [runBody, pushLoop_of_check_false _ _ _ hc]

/-- C3, at a concrete input: two pushes that return false and a third that
returns true give three pushes, and a set `quit` gives none. -/
theorem run_pushes_while_not_quit_nor_eof_witness :
    (run Globals.initial
        { connectToNode := { sigint := false, outcome := Outcome.returns () },
          push := [{ sigint := false, outcome := Outcome.returns false },
                   { sigint := false, outcome := Outcome.returns false }] ++
                  { sigint := false, outcome := Outcome.returns true } ::
                  [{ sigint := false, outcome := Outcome.returns false }] } =
      { globals := { quit := 0, source_eof := 1 }, connects := 1,
        pushes := 2 + 1, exit := Exit.returned }) ∧
    (run { quit := 1, source_eof := 0 }
        { connectToNode := { sigint := false, outcome := Outcome.returns () },
          push := [{ sigint := false, outcome := Outcome.returns false }] }).pushes = 0 :=
  ⟨(run_pushes_while_not_quit_nor_eof Globals.initial
      { sigint := false, outcome := Outcome.returns () }
      [{ sigint := false, outcome := Outcome.returns false },
       { sigint := false, outcome := Outcome.returns false }]
      [{ sigint := false, outcome := Outcome.returns false }] []
      { sigint := false, outcome := Outcome.returns true }).2.2.1 (by decide),
   (run_pushes_while_not_quit_nor_eof { quit := 1, source_eof := 0 }
      { sigint := false, outcome := Outcome.returns () } [] []
      [{ sigint := false, outcome := Outcome.returns false }]
      { sigint := false, outcome := Outcome.returns false }).2.2.2 (by decide)⟩

/-- A push that throws ends the loop with that exception. -/
theorem pushLoop_throw (pre rest : List (Call Bool)) (sigint : Bool) (e : Exn)
    (g : Globals) (hq : g.quit = 0) (he : g.source_eof = 0) :
    (∀ p ∈ pre, p = { sigint := false, outcome := Outcome.returns false }) →
    ∀ n : Nat,
      pushLoop g n (pre ++ { sigint := sigint, outcome := Outcome.throws e } :: rest) =
        { globals := deliver sigint g, connects := 1, pushes := n + pre.length + 1,
          exit := Exit.threw e } := by
  have hg : loopCheck g = true := (loopCheck_iff g).mpr ⟨hq, he⟩
  have hsame : ({ deliver false g with source_eof := if false = true then 1 else 0 } : Globals)
      = g := by
    obtain ⟨q, f⟩ := g
    simp only at he
    simp [deliver, he]
  induction pre with
  | nil => intro _ n; simp [pushLoop, hg]
  | cons p pre ih =>
    intro hp n
    have hp0 := hp p (List.mem_cons_self _ _)
    have hrest := ih (fun q hq => hp q (List.mem_cons_of_mem _ hq)) (n + 1)
    subst hp0
    have hstep : pushLoop g n
          (({ sigint := false, outcome := Outcome.returns false } : Call Bool) :: pre ++
            { sigint := sigint, outcome := Outcome.throws e } :: rest) =
        pushLoop g (n + 1)
          (pre ++ { sigint := sigint, outcome := Outcome.throws e } :: rest) := by
      conv_lhs => rw [List.cons_append, pushLoop, if_pos hg]
      simp only
      rw [hsame]
    rw [hstep, hrest]
    simp; omega

/-- C4: an interprocess exception raised by `connectToNode` or by `push` ends
`run` at once.  Raised by `connectToNode`, whatever the flags are on entry
(also with `quit` already set), no push is made; raised by the push after the
pushes `pre`, when the loop reaches that push, exactly `pre.length + 1` pushes
are made, whatever the later pushes would have done.  In both cases `run`
returns normally if and only if the error code is 1 and otherwise throws the
same exception. -/
theorem run_recovers_error_code_one (g : Globals) (connect : Call Unit) (sigint : Bool)
    (code : Int) (pre rest script : List (Call Bool)) :
    run g { connectToNode := { sigint := sigint, outcome := Outcome.throws (Exn.interprocess code) },
            push := script } =
      { globals := deliver sigint g, connects := 1, pushes := 0,
        exit := if code = 1 then Exit.returned else Exit.threw (Exn.interprocess code) } ∧
    ((run g { connectToNode := { sigint := sigint,
                                 outcome := Outcome.throws (Exn.interprocess code) },
              push := script }).exit = Exit.returned ↔ code = 1) ∧
    (Reaches g connect pre →
      run g { connectToNode := connect,
              push := pre ++ { sigint := sigint,
                               outcome := Outcome.throws (Exn.interprocess code) } :: rest } =
        { globals := deliver sigint g, connects := 1, pushes := pre.length + 1,
          exit := if code = 1 then Exit.returned else Exit.threw (Exn.interprocess code) } ∧
      ((run g { connectToNode := connect,
                push := pre ++ { sigint := sigint,
                                 outcome := Outcome.throws (Exn.interprocess code) } :: rest }).exit
          = Exit.returned ↔ code = 1)) := by
  have h1 : run g
        { connectToNode :=
            { sigint := sigint, outcome := Outcome.throws (Exn.interprocess code) },
          push := script } =
      { globals := deliver sigint g, connects := 1, pushes := 0,
        exit := if code = 1 then Exit.returned else Exit.threw (Exn.interprocess code) } := by
    by_cases hcode : code = 1 <;> simp [run, runBody, hcode]
  refine ⟨h1, ?_, ?_⟩
  · rw [h1]; by_cases hcode : code = 1 <;> simp [hcode]
  · intro h
    obtain ⟨hq, he, hc, hpre⟩ := h
    have h2 : run g
          { connectToNode := connect,
            push := pre ++ { sigint := sigint,
                             outcome := Outcome.throws (Exn.interprocess code) } :: rest } =
        { globals := deliver sigint g, connects := 1, pushes := pre.length + 1,
          exit := if code = 1 then Exit.returned else Exit.threw (Exn.interprocess code) } := by
      have hl := pushLoop_throw pre rest sigint (Exn.interprocess code) g hq he hpre 0
      simp only [Nat.zero_add] at hl
      subst hc
      have hb : runBody g
            { connectToNode := { sigint := false, outcome := Outcome.returns () },
              push := pre ++ { sigint := sigint,
                               outcome := Outcome.throws (Exn.interprocess code) } :: rest } =
          { globals := deliver sigint g, connects := 1, pushes := pre.length + 1,
            exit := Exit.threw (Exn.interprocess code) } := by
        simp only [runBody]
        rw [← hl]
        simp [deliver]
      unfold run
      rw [hb]
      by_cases hcode : code = 1 <;> simp [hcode]
    refine ⟨h2, ?_⟩
    rw [h2]; by_cases hcode : code = 1 <;> simp [hcode]

/-- C4, at a concrete input: the second push throws with error code 1 while
SIGINT is delivered, and `run` returns after two pushes; and with `quit`
already set on entry, `connectToNode` throwing with error code 7 makes `run`
throw it, with no push. -/
theorem run_recovers_error_code_one_witness :
    Reaches Globals.initial { sigint := false, outcome := Outcome.returns () }
      [{ sigint := false, outcome := Outcome.returns false }] ∧
    run Globals.initial
        { connectToNode := { sigint := false, outcome := Outcome.returns () },
          push := [{ sigint := false, outcome := Outcome.returns false }] ++
            { sigint := true, outcome := Outcome.throws (Exn.interprocess 1) } ::
            [{ sigint := false, outcome := Outcome.returns false }] } =
      { globals := deliver true Globals.initial, connects := 1,
        pushes := [({ sigint := false, outcome := Outcome.returns false } : Call Bool)].length + 1,
        exit := if (1 : Int) = 1 then Exit.returned else Exit.threw (Exn.interprocess 1) } ∧
    run { quit := 1, source_eof := 0 }
        { connectToNode := { sigint := false, outcome := Outcome.throws (Exn.interprocess 7) },
          push := [{ sigint := false, outcome := Outcome.returns false }] } =
      { globals := deliver false { quit := 1, source_eof := 0 }, connects := 1, pushes := 0,
        exit := if (7 : Int) = 1 then Exit.returned else Exit.threw (Exn.interprocess 7) } := by
  have hr : Reaches Globals.initial { sigint := false, outcome := Outcome.returns () }
      [{ sigint := false, outcome := Outcome.returns false }] := by
    refine ⟨rfl, rfl, rfl, ?_⟩
    intro p hp
    simpa using hp
  exact ⟨hr,
    ((run_recovers_error_code_one Globals.initial
      { sigint := false, outcome := Outcome.returns () } true 1
      [{ sigint := false, outcome := Outcome.returns false }]
      [{ sigint := false, outcome := Outcome.returns false }] []).2.2 hr).1,
    (run_recovers_error_code_one { quit := 1, source_eof := 0 }
      { sigint := false, outcome := Outcome.returns () } false 7 [] []
      [{ sigint := false, outcome := Outcome.returns false }]).1⟩

theorem type_hash_at_frame : type_hash_at "frame" = 'a' := by decide

theorem type_hash_at_pos2D : type_hash_at "pos2D" = 'b' := by decide

theorem type_hash_at_other (type : String) (hf : type ≠ "frame") (hp : type ≠ "pos2D") :
    type_hash_at type = Char.ofNat 0 := by
  have h1 : (type == "frame") = false := beq_false_of_ne hf
  have h2 : (type == "pos2D") = false := beq_false_of_ne hp
  simp only [type_hash_at, type_hash, List.lookup, h1, h2]
  rfl

theorem selectKind_frame : selectKind "frame" = some BufferKind.FrameBuffer := by decide

theorem selectKind_pos2D : selectKind "pos2D" = some BufferKind.TokenBufferPosition2D := by
  decide

theorem selectKind_other (type : String) (hf : type ≠ "frame") (hp : type ≠ "pos2D") :
    selectKind type = none := by
  unfold selectKind
  rw [type_hash_at_other type hf hp]
  decide

theorem parseOptions_commandLine (type source sink : String) :
    parseOptions (commandLine type source sink) = Sum.inr (type, source, sink) := by
  simp [parseOptions, commandLine]

/-- `run` returns normally when its `try` block ends normally or by an
interprocess exception with error code 1. -/
theorem run_exit_returned (g : Globals) (s : Script)
    (h : (runBody g s).exit = Exit.returned ∨
         (runBody g s).exit = Exit.threw (Exn.interprocess 1)) :
    (run g s).exit = Exit.returned := by
  unfold run
  rcases h with h | h <;> simp [h]

/-- The business block returns 0 when `run` returns. -/
theorem business_exit_zero (kind : BufferKind) (source sink : String) (g : Globals)
    (s : Script) (h : (run g s).exit = Exit.returned) :
    (business kind source sink g s).exit = MainExit.exited 0 := by
  unfold business
  simp [h]

/-- The loop is only left normally with one of the two flags set. -/
theorem pushLoop_returned_flags (script : List (Call Bool)) :
    ∀ (g : Globals) (n : Nat), (pushLoop g n script).exit = Exit.returned →
      (pushLoop g n script).globals.quit ≠ 0 ∨ (pushLoop g n script).globals.source_eof ≠ 0 := by
  induction script with
  | nil =>
    intro g n
    cases hg : loopCheck g with
    | true => simp [pushLoop, hg]
    | false =>
      intro _
      rw [pushLoop_of_check_false g n _ hg]
      by_contra hcon
      push_neg at hcon
      have := (loopCheck_iff g).mpr hcon
      simp [hg] at this
  | cons c rest ih =>
    intro g n
    cases hg : loopCheck g with
    | false =>
      intro _
      rw [pushLoop_of_check_false g n _ hg]
      by_contra hcon
      push_neg at hcon
      have := (loopCheck_iff g).mpr hcon
      simp [hg] at this
    | true =>
      obtain ⟨sigint, outcome⟩ := c
      cases outcome with
      | throws e => simp [pushLoop, hg]
      | returns eof =>
        have hstep : pushLoop g n
              (({ sigint := sigint, outcome := Outcome.returns eof } : Call Bool) :: rest) =
            pushLoop { deliver sigint g with source_eof := if eof then 1 else 0 } (n + 1)
              rest := by
          simp [pushLoop, hg]
        rw [hstep]
        exact ih _ _

/-- C5: for a command line that gives a recognised TYPE, a SOURCE and a SINK,
the buffer process exits with code 0 whenever its run loop ends by stream
exhaustion (the loop is left with `source_eof` set by a push), by the interrupt
flag (the loop is left with `quit` set) or by a wait interrupted with error
code 1. -/
theorem main_exits_zero_on_clean_end (type source sink : String)
    (hvalid : type = "frame" ∨ type = "pos2D") (earlySigint : Bool) (s : Script)
    (hend : EndsByEof (deliver earlySigint Globals.initial) s ∨
            EndsByQuit (deliver earlySigint Globals.initial) s ∨
            EndsByInterruptedWait (deliver earlySigint Globals.initial) s) :
    (main earlySigint (commandLine type source sink) (Outcome.returns ()) s).exit
      = MainExit.exited 0 := by
  have hrun : (run (deliver earlySigint Globals.initial) s).exit = Exit.returned := by
    apply run_exit_returned
    rcases hend with h | h | h
    · exact Or.inl h.1
    · exact Or.inl h.1
    · exact Or.inr h
  unfold main
  rw [parseOptions_commandLine]
  rcases hvalid with h | h <;> subst h
  · simp only [selectKind_frame]
    exact business_exit_zero _ _ _ _ _ hrun
  · simp only [selectKind_pos2D]
    exact business_exit_zero _ _ _ _ _ hrun

/-- C5, at a concrete input: a frame buffer whose second push reports end of
stream. -/
theorem main_exits_zero_on_clean_end_witness :
    EndsByEof (deliver false Globals.initial)
      { connectToNode := { sigint := false, outcome := Outcome.returns () },
        push := [{ sigint := false, outcome := Outcome.returns false },
                 { sigint := false, outcome := Outcome.returns true }] } ∧
    (main false (commandLine "frame" "raw" "buffered") (Outcome.returns ())
      { connectToNode := { sigint := false, outcome := Outcome.returns () },
        push := [{ sigint := false, outcome := Outcome.returns false },
                 { sigint := false, outcome := Outcome.returns true }] }).exit
      = MainExit.exited 0 := by
  have h : EndsByEof (deliver false Globals.initial)
      { connectToNode := { sigint := false, outcome := Outcome.returns () },
        push := [{ sigint := false, outcome := Outcome.returns false },
                 { sigint := false, outcome := Outcome.returns true }] } := by
    constructor <;> decide
  exact ⟨h, main_exits_zero_on_clean_end "frame" "raw" "buffered" (Or.inl rfl) false _
    (Or.inl h)⟩

theorem business_built (kind : BufferKind) (source sink : String) (g : Globals) (s : Script) :
    (business kind source sink g s).built = some kind := by
  unfold business
  simp only
  split <;> rfl

theorem business_run (kind : BufferKind) (source sink : String) (g : Globals) (s : Script) :
    (business kind source sink g s).run = some (run g s) := by
  unfold business
  simp only
  split <;> rfl

/-- The business block returns -1 when `run` throws. -/
theorem business_exit_failure (kind : BufferKind) (source sink : String) (g : Globals)
    (s : Script) (e : Exn) (h : (run g s).exit = Exit.threw e) :
    (business kind source sink g s).exit = MainExit.exited (-1) := by
  unfold business
  simp only [h]
  cases e <;> rfl

/-- What `run` does when `connectToNode` throws. -/
theorem run_connect_throws (g : Globals) (sigint : Bool) (e : Exn) (script : List (Call Bool)) :
    (run g { connectToNode := { sigint := sigint, outcome := Outcome.throws e },
             push := script }).pushes = 0 ∧
    (e ≠ Exn.interprocess 1 →
      (run g { connectToNode := { sigint := sigint, outcome := Outcome.throws e },
               push := script }).exit = Exit.threw e) ∧
    (e = Exn.interprocess 1 →
      (run g { connectToNode := { sigint := sigint, outcome := Outcome.throws e },
               push := script }).exit = Exit.returned) := by
  refine ⟨by rw [run_pushes]; simp [runBody], ?_, ?_⟩
  · intro hne
    cases e with
    | interprocess code =>
      have hc : code ≠ 1 := fun h => hne (by rw [h])
      simp [run, runBody, hc]
    | runtime_error what => simp [run, runBody]
    | cvException what => simp [run, runBody]
    | unknown => simp [run, runBody]
  · intro he
    subst he
    simp [run, runBody]

/-- C6, as stated, fails: `connectToNode` raising an interprocess exception
with error code 1 is swallowed by `run`, and `main` exits with code 0. -/
theorem connect_error_code_one_exits_zero :
    (main false (commandLine "frame" "raw" "buffered") (Outcome.returns ())
      { connectToNode := { sigint := false, outcome := Outcome.throws (Exn.interprocess 1) },
        push := [] }).exit = MainExit.exited 0 := by
  decide

/-- C6, amended: for a command line with a recognised TYPE, a SOURCE and a
SINK, every exception raised by `connectToNode` keeps the process out of its
run loop (`push` is called zero times); `main` exits with code -1 for every
such exception other than an interprocess exception with error code 1, and
with code 0 for that one, which `run` takes for an interrupted wait. -/
theorem connect_error_is_fatal_unless_code_one (type source sink : String)
    (hvalid : type = "frame" ∨ type = "pos2D") (earlySigint sigint : Bool) (e : Exn)
    (script : List (Call Bool)) :
    ((main earlySigint (commandLine type source sink) (Outcome.returns ())
        { connectToNode := { sigint := sigint, outcome := Outcome.throws e },
          push := script }).run.map RunResult.pushes = some 0) ∧
    (e ≠ Exn.interprocess 1 →
      (main earlySigint (commandLine type source sink) (Outcome.returns ())
        { connectToNode := { sigint := sigint, outcome := Outcome.throws e },
          push := script }).exit = MainExit.exited (-1)) ∧
    (e = Exn.interprocess 1 →
      (main earlySigint (commandLine type source sink) (Outcome.returns ())
        { connectToNode := { sigint := sigint, outcome := Outcome.throws e },
          push := script }).exit = MainExit.exited 0) := by
  obtain ⟨hp, hthrow, hret⟩ :=
    run_connect_throws (deliver earlySigint Globals.initial) sigint e script
  have hmain : ∃ kind, main earlySigint (commandLine type source sink) (Outcome.returns ())
        { connectToNode := { sigint := sigint, outcome := Outcome.throws e },
          push := script } =
      business kind source sink (deliver earlySigint Globals.initial)
        { connectToNode := { sigint := sigint, outcome := Outcome.throws e },
          push := script } := by
    unfold main
    rw [parseOptions_commandLine]
    rcases hvalid with h | h <;> subst h
    · exact ⟨BufferKind.FrameBuffer, by simp only [selectKind_frame]⟩
    · exact ⟨BufferKind.TokenBufferPosition2D, by simp only [selectKind_pos2D]⟩
  obtain ⟨kind, hk⟩ := hmain
  rw [hk]
  refine ⟨?_, ?_, ?_⟩
  · rw [business_run]; simp [hp]
  · intro hne; exact business_exit_failure _ _ _ _ _ e (hthrow hne)
  · intro he; exact business_exit_zero _ _ _ _ _ (hret he)

/-- C6 amended, at a concrete input: the source segment is not found (error
code 7); no push is made and `main` returns -1. -/
theorem connect_error_is_fatal_unless_code_one_witness :
    Exn.interprocess 7 ≠ Exn.interprocess 1 ∧
    (main false (commandLine "pos2D" "raw" "buffered") (Outcome.returns ())
      { connectToNode := { sigint := false, outcome := Outcome.throws (Exn.interprocess 7) },
        push := [{ sigint := false, outcome := Outcome.returns true }] }).exit
      = MainExit.exited (-1) :=
  ⟨by decide,
   (connect_error_is_fatal_unless_code_one "pos2D" "raw" "buffered" (Or.inr rfl) false false
      (Exn.interprocess 7) [{ sigint := false, outcome := Outcome.returns true }]).2.1
      (by decide)⟩

/-- C8: the TYPE argument selects the specialization.  The switch of `main`
builds a frame buffer exactly for the string `frame` and a 2D-position token
buffer exactly for the string `pos2D`; for every other TYPE (given together
with a SOURCE and a SINK) `main` prints the usage and the error
`Invalid TYPE specified.`, returns -1, builds no buffer and does not call
`run`. -/
theorem type_selects_specialization (type source sink : String) (earlySigint : Bool)
    (construct : Outcome Unit) (s : Script) :
    (selectKind type = some BufferKind.FrameBuffer ↔ type = "frame") ∧
    (selectKind type = some BufferKind.TokenBufferPosition2D ↔ type = "pos2D") ∧
    ((main earlySigint (commandLine "frame" source sink) (Outcome.returns ()) s).built
      = some BufferKind.FrameBuffer) ∧
    ((main earlySigint (commandLine "pos2D" source sink) (Outcome.returns ()) s).built
      = some BufferKind.TokenBufferPosition2D) ∧
    (type ≠ "frame" → type ≠ "pos2D" →
      main earlySigint (commandLine type source sink) construct s =
        { exit := MainExit.exited (-1),
          output := [Output.usage, Output.error "Invalid TYPE specified.\n"],
          built := none, run := none }) := by
  have hsel : ∀ t : String,
      (t = "frame" ∧ selectKind t = some BufferKind.FrameBuffer) ∨
      (t = "pos2D" ∧ selectKind t = some BufferKind.TokenBufferPosition2D) ∨
      (t ≠ "frame" ∧ t ≠ "pos2D" ∧ selectKind t = none) := by
    intro t
    by_cases hf : t = "frame"
    · exact Or.inl ⟨hf, by rw [hf]; exact selectKind_frame⟩
    · by_cases hp : t = "pos2D"
      · exact Or.inr (Or.inl ⟨hp, by rw [hp]; exact selectKind_pos2D⟩)
      · exact Or.inr (Or.inr ⟨hf, hp, selectKind_other t hf hp⟩)
  refine ⟨?_, ?_, ?_, ?_, ?_⟩
  · rcases hsel type with ⟨h, hs⟩ | ⟨h, hs⟩ | ⟨hf, hp, hs⟩
    · exact iff_of_true hs h
    · rw [hs, h]; decide
    · simp [hs, hf]
  · rcases hsel type with ⟨h, hs⟩ | ⟨h, hs⟩ | ⟨hf, hp, hs⟩
    · rw [hs, h]; decide
    · exact iff_of_true hs h
    · simp [hs, hp]
  · unfold main
    rw [parseOptions_commandLine]
    simp only [selectKind_frame]
    exact business_built _ _ _ _ _
  · unfold main
    rw [parseOptions_commandLine]
    simp only [selectKind_pos2D]
    exact business_built _ _ _ _ _
  · intro hf hp
    unfold main
    rw [parseOptions_commandLine]
    simp only [selectKind_other type hf hp]
    rfl

/-- C8, at a concrete input: the TYPE `Frame` (another letter case) is
refused. -/
theorem type_selects_specialization_witness :
    "Frame" ≠ "frame" ∧ "Frame" ≠ "pos2D" ∧
    main false (commandLine "Frame" "raw" "buffered") (Outcome.returns ())
        { connectToNode := { sigint := false, outcome := Outcome.returns () }, push := [] } =
      { exit := MainExit.exited (-1),
        output := [Output.usage, Output.error "Invalid TYPE specified.\n"],
        built := none, run := none } :=
  ⟨by decide, by decide,
   (type_selects_specialization "Frame" "raw" "buffered" false (Outcome.returns ())
      { connectToNode := { sigint := false, outcome := Outcome.returns () }, push := [] }).2.2.2.2
      (by decide) (by decide)⟩

end Buffer

/-! ## Theorems: the viewer -/

namespace Viewer

/-- C7: `Viewer::showImage` treats the end of the stream as normal
termination.  When `getSharedMat` returns and the OpenCV calls throw nothing
but `cv::Exception`, the call returns (no exception escapes), and it returns
true if and only if the source's run state, read at the end of the call, is
`END`: whether no frame was acquired, a frame was acquired but not shown, the
frame was shown, or showing it raised an OpenCV exception. -/
theorem showImage_true_iff_END (w : World) (h : w.onlyCvExceptions) :
    (showImage w).result = Outcome.returns (atEnd w) ∧
    ((showImage w).result = Outcome.returns true ↔ w.sourceRunState = RunState.END) := by
  have hres : (showImage w).result = Outcome.returns (atEnd w) := by
    obtain ⟨⟨got, hgot⟩, hshow, hkey, hwrite⟩ := h
    unfold showImage
    rw [hgot]
    cases got with
    | false => rfl
    | true =>
      simp only
      cases w.elapsed with
      | false => rfl
      | true =>
        simp only [if_true]
        unfold showBlock
        cases hs : w.imshow with
        | throws e =>
          obtain ⟨what, rfl⟩ := hshow e hs
          rfl
        | returns u =>
          cases hk : w.waitKey with
          | throws e =>
            obtain ⟨what, rfl⟩ := hkey e hk
            rfl
          | returns key =>
            simp only
            cases isSaveCommand key with
            | false => rfl
            | true =>
              simp only [if_true]
              cases hw : w.imwrite with
              | throws e =>
                obtain ⟨what, rfl⟩ := hwrite e hw
                rfl
              | returns u => rfl
  refine ⟨hres, ?_⟩
  rw [hres]
  simp [atEnd]

/-- C7, at a concrete input: showing the frame raises an OpenCV exception and
the source has ended; `showImage` returns true. -/
theorem showImage_true_iff_END_witness :
    World.onlyCvExceptions
      { getSharedMat := Outcome.returns true, elapsed := true,
        imshow := Outcome.throws (Exn.cvException "bad window"),
        waitKey := Outcome.returns 0, imwrite := Outcome.returns (),
        sourceRunState := RunState.END } ∧
    (showImage
      { getSharedMat := Outcome.returns true, elapsed := true,
        imshow := Outcome.throws (Exn.cvException "bad window"),
        waitKey := Outcome.returns 0, imwrite := Outcome.returns (),
        sourceRunState := RunState.END }).result = Outcome.returns true := by
  have h : World.onlyCvExceptions
      { getSharedMat := Outcome.returns true, elapsed := true,
        imshow := Outcome.throws (Exn.cvException "bad window"),
        waitKey := Outcome.returns 0, imwrite := Outcome.returns (),
        sourceRunState := RunState.END } := by
    refine ⟨⟨true, rfl⟩, ?_, ?_, ?_⟩
    · intro e he
      exact ⟨"bad window", by simpa using he.symm⟩
    · intro e he; simp at he
    · intro e he; simp at he
  exact ⟨h, (showImage_true_iff_END _ h).2.mpr rfl⟩

end Viewer

/-! ## Theorems: `configure` of the planar multi-LED detector -/

namespace PlanarMultiLedDetector

theorem andThen_raised (r : Detector × Option Raised)
    (next : Detector → Detector × Option Raised) (e : Raised)
    (h : (andThen r next).2 = some e) : r.2 = some e ∨ (next r.1).2 = some e := by
  unfold andThen at h
  cases hr : r.2 with
  | some raised => rw [hr] at h; exact Or.inl h
  | none => rw [hr] at h; exact Or.inr h

theorem andThen_of_raised (r : Detector × Option Raised)
    (next : Detector → Detector × Option Raised) (e : Raised) (h : r.2 = some e) :
    andThen r next = (r.1, some e) := by
  unfold andThen
  rw [h]

theorem andThen_of_ok (d : Detector) (next : Detector → Detector × Option Raised) :
    andThen (d, none) next = next d := rfl

theorem configureSize_raised (set : Detector → Int → Detector) (d : Detector)
    (l : Lookup Int) (e : Raised) (h : (configureSize set d l).2 = some e) :
    ∃ what, e = Raised.helper what := by
  cases l with
  | absent => simp [configureSize] at h
  | found value => simp [configureSize] at h
  | fails what => exact ⟨what, by simpa [configureSize] using h.symm⟩

theorem configureTune_raised (d : Detector) (l : Lookup Bool) (e : Raised)
    (h : (configureTune d l).2 = some e) : ∃ what, e = Raised.helper what := by
  cases l with
  | absent => simp [configureTune] at h
  | found value => simp [configureTune] at h
  | fails what => exact ⟨what, by simpa [configureTune] using h.symm⟩

theorem configureArea_raised (d : Detector) (l : Lookup (ℚ × ℚ)) (e : Raised)
    (h : (configureArea d l).2 = some e) :
    e = Raised.runtime_error "Max area should be larger than min area." ∨
      ∃ what, e = Raised.helper what := by
  cases l with
  | absent => simp [configureArea] at h
  | fails what => exact Or.inr ⟨what, by simpa [configureArea] using h.symm⟩
  | found area =>
    simp only [configureArea] at h
    split at h
    · exact Or.inl (by simpa using h.symm)
    · simp at h

/-- The threshold block on a pair that was supplied. -/
theorem configureThresh_found (d : Detector) (min max : Int) :
    configureThresh d (Lookup.found (min, max)) =
      ({ d with t_min_ := min, t_max_ := max },
        if min < 0 ∨ min > 256 ∨ max < 0 ∨ max > 256 then
          some (Raised.runtime_error "Values of thresh should be between 0 and 256.")
        else none) := by
  simp only [configureThresh]
  split <;> rfl

/-- C9: the values of `thresh` are to lie between 0 and 256.  When the
configuration table is read and a `thresh` array `[min, max]` is supplied,
`configure` raises `Values of thresh should be between 0 and 256.` if and only
if `min < 0` or `min > 256` or `max < 0` or `max > 256`; every other pair is
accepted by the threshold block, which stores it in `t_min_` and `t_max_`. -/
theorem thresh_rejected_iff_out_of_range (d : Detector) (o : Options) (min max : Int)
    (htable : o.table = none) (hthresh : o.thresh = Lookup.found (min, max)) :
    ((configure d o).2 =
        some (Raised.runtime_error "Values of thresh should be between 0 and 256.") ↔
      (min < 0 ∨ min > 256 ∨ max < 0 ∨ max > 256)) ∧
    (¬ (min < 0 ∨ min > 256 ∨ max < 0 ∨ max > 256) →
      configureThresh d o.thresh = ({ d with t_min_ := min, t_max_ := max }, none)) := by
  constructor
  · constructor
    · intro h
      by_contra hin
      have ht : (configureThresh d o.thresh).2 = none := by
        rw [hthresh, configureThresh_found, if_neg hin]
      unfold configure at h
      rw [htable] at h
      simp only at h
      rcases andThen_raised _ _ _ h with h5 | h5
      · rcases andThen_raised _ _ _ h5 with h4 | h4
        · rcases andThen_raised _ _ _ h4 with h3 | h3
          · rcases andThen_raised _ _ _ h3 with h2 | h2
            · rcases andThen_raised _ _ _ h2 with h1 | h1
              · rw [ht] at h1; simp at h1
              · obtain ⟨what, hw⟩ := configureSize_raised _ _ _ _ h1
                simp at hw
            · obtain ⟨what, hw⟩ := configureSize_raised _ _ _ _ h2
              simp at hw
          · obtain ⟨what, hw⟩ := configureSize_raised _ _ _ _ h3
            simp at hw
        · rcases configureArea_raised _ _ _ h4 with hw | ⟨what, hw⟩
          · exact absurd hw (by decide)
          · simp at hw
      · obtain ⟨what, hw⟩ := configureTune_raised _ _ _ h5
        simp at hw
    · intro hout
      have ht : (configureThresh d o.thresh).2 =
          some (Raised.runtime_error "Values of thresh should be between 0 and 256.") := by
        rw [hthresh, configureThresh_found, if_pos hout]
      unfold configure
      rw [htable]
      simp only
      rw [andThen_of_raised _ _ _ ht, andThen_of_raised _ _ _ rfl, andThen_of_raised _ _ _ rfl,
        andThen_of_raised _ _ _ rfl, andThen_of_raised _ _ _ rfl]
  · intro hin
    rw [hthresh, configureThresh_found, if_neg hin]

/-- C9, at a concrete input: the pair `[-1, 10]` is refused. -/
theorem thresh_rejected_iff_out_of_range_witness :
    (configure Detector.fresh
      { table := none, thresh := Lookup.found (-1, 10), erode := Lookup.absent,
        dilate := Lookup.absent, mincomp := Lookup.absent, area := Lookup.absent,
        tune := Lookup.absent }).2 =
      some (Raised.runtime_error "Values of thresh should be between 0 and 256.") :=
  (thresh_rejected_iff_out_of_range Detector.fresh
      { table := none, thresh := Lookup.found (-1, 10), erode := Lookup.absent,
        dilate := Lookup.absent, mincomp := Lookup.absent, area := Lookup.absent,
        tune := Lookup.absent } (-1) 10 rfl rfl).1.mpr (Or.inl (by decide))

theorem configureSize_ok (set : Detector → Int → Detector) (d : Detector) (l : Lookup Int)
    (h : ∀ what, l ≠ Lookup.fails what) : ∃ d1, configureSize set d l = (d1, none) := by
  cases l with
  | absent => exact ⟨d, rfl⟩
  | found value => exact ⟨set d value, rfl⟩
  | fails what => exact absurd rfl (h what)

/-- When nothing before the area block throws, the blocks before it leave a
detector and no exception. -/
theorem reachesArea_ok (d : Detector) (o : Options) (h : o.reachesArea) :
    ∃ d4, andThen (andThen (andThen (configureThresh d o.thresh)
        (fun d1 => configureSize set_erode_size d1 o.erode))
        (fun d2 => configureSize set_dilate_size d2 o.dilate))
        (fun d3 => configureSize set_mincomp_size d3 o.mincomp) = (d4, none) := by
  obtain ⟨-, hthresh, herode, hdilate, hmincomp⟩ := h
  have h1 : ∃ d1, configureThresh d o.thresh = (d1, none) := by
    rcases hthresh with ha | ⟨min, max, hf, hin⟩
    · exact ⟨d, by rw [ha]; rfl⟩
    · unfold threshOutOfRange at hin
      exact ⟨_, by rw [hf, configureThresh_found, if_neg hin]⟩
  obtain ⟨d1, hd1⟩ := h1
  obtain ⟨d2, hd2⟩ := configureSize_ok set_erode_size d1 o.erode herode
  obtain ⟨d3, hd3⟩ := configureSize_ok set_dilate_size d2 o.dilate hdilate
  obtain ⟨d4, hd4⟩ := configureSize_ok set_mincomp_size d3 o.mincomp hmincomp
  exact ⟨d4, by rw [hd1, andThen_of_ok, hd2, andThen_of_ok, hd3, andThen_of_ok, hd4]⟩

/-- The area block on a pair that was supplied. -/
theorem configureArea_found (d : Detector) (min max : ℚ) :
    configureArea d (Lookup.found (min, max)) =
      ({ d with min_object_area_ := min, max_object_area_ := max,
                dummy0_ := truncate min, dummy1_ := truncate max },
        if min ≥ max then
          some (Raised.runtime_error "Max area should be larger than min area.")
        else none) := by
  simp only [configureArea]
  split <;> rfl

/-- The last statement of `configure` leaves the two areas alone. -/
theorem configureTune_areas (d : Detector) (l : Lookup Bool) :
    (configureTune d l).1.min_object_area_ = d.min_object_area_ ∧
    (configureTune d l).1.max_object_area_ = d.max_object_area_ := by
  cases l <;> exact ⟨rfl, rfl⟩

/-- C10: the maximum area is to be larger than the minimum area.  When nothing
before the area block of `configure` throws and an `area` array `[min, max]`
is supplied, `configure` raises `Max area should be larger than min area.` if
and only if `min >= max`; it stores `min` in `min_object_area_` and `max` in
`max_object_area_`, and when `min < max` and the `tune` option is read without a
failure it raises nothing. -/
theorem area_rejected_iff_min_ge_max (d : Detector) (o : Options) (min max : ℚ)
    (hreach : o.reachesArea) (harea : o.area = Lookup.found (min, max)) :
    ((configure d o).2 =
        some (Raised.runtime_error "Max area should be larger than min area.") ↔
      min ≥ max) ∧
    (configure d o).1.min_object_area_ = min ∧
    (configure d o).1.max_object_area_ = max ∧
    (min < max → (∀ what, o.tune ≠ Lookup.fails what) → (configure d o).2 = none) := by
  obtain ⟨d4, hd4⟩ := reachesArea_ok d o hreach
  have hconf : configure d o =
      andThen (configureArea d4 (Lookup.found (min, max)))
        (fun d5 => configureTune d5 o.tune) := by
    unfold configure
    rw [hreach.1]
    simp only
    rw [hd4, andThen_of_ok, harea]
  rw [hconf, configureArea_found]
  by_cases hge : min ≥ max
  · rw [if_pos hge, andThen_of_raised _ _ _ rfl]
    refine ⟨iff_of_true rfl hge, rfl, rfl, ?_⟩
    intro hlt
    exact absurd hge (not_le.mpr hlt)
  · rw [if_neg hge, andThen_of_ok]
    obtain ⟨hmin, hmax⟩ := configureTune_areas
      { d4 with min_object_area_ := min, max_object_area_ := max,
                dummy0_ := truncate min, dummy1_ := truncate max } o.tune
    refine ⟨iff_of_false ?_ hge, hmin, hmax, ?_⟩
    · intro h
      obtain ⟨what, hw⟩ := configureTune_raised _ _ _ h
      simp at hw
    · intro _ htune
      cases ht : o.tune with
      | absent => rfl
      | found value => rfl
      | fails what => exact absurd ht (htune what)

/-- C10, at a concrete input: the pair `[10, 5]` is refused. -/
theorem area_rejected_iff_min_ge_max_witness :
    Options.reachesArea
      { table := none, thresh := Lookup.found (0, 256), erode := Lookup.found 3,
        dilate := Lookup.absent, mincomp := Lookup.absent, area := Lookup.found (10, 5),
        tune := Lookup.absent } ∧
    (configure Detector.fresh
      { table := none, thresh := Lookup.found (0, 256), erode := Lookup.found 3,
        dilate := Lookup.absent, mincomp := Lookup.absent, area := Lookup.found (10, 5),
        tune := Lookup.absent }).2 =
      some (Raised.runtime_error "Max area should be larger than min area.") := by
  have h : Options.reachesArea
      { table := none, thresh := Lookup.found (0, 256), erode := Lookup.found 3,
        dilate := Lookup.absent, mincomp := Lookup.absent, area := Lookup.found (10, 5),
        tune := Lookup.absent } := by
    refine ⟨rfl, Or.inr ⟨0, 256, rfl, by unfold threshOutOfRange; decide⟩, ?_, ?_, ?_⟩
    · intro what hw; cases hw
    · intro what hw; cases hw
    · intro what hw; cases hw
  exact ⟨h, (area_rejected_iff_min_ge_max Detector.fresh _ 10 5 h rfl).1.mpr (by norm_num)⟩

end PlanarMultiLedDetector

/-! ## Theorems: `detectPosition` of the planar multi-LED detector -/

namespace PlanarMultiLedDetector

theorem scanStep_of_not_inRange (d : Detector) (s : Scan) (m : Moments)
    (h : inAreaRange d m = false) : scanStep d s m = s := by
  simp [scanStep, h]

theorem scanStep_Nmarkers (d : Detector) (s : Scan) (m : Moments)
    (h : inAreaRange d m = true) : (scanStep d s m).Nmarkers = s.Nmarkers + 1 := by
  simp only [scanStep, h, if_true]
  split <;> rfl

theorem scanStep_position_valid (d : Detector) (s : Scan) (m : Moments) :
    (scanStep d s m).position.position_valid = s.position.position_valid := by
  cases h : inAreaRange d m with
  | false => rw [scanStep_of_not_inRange d s m h]
  | true =>
    simp only [scanStep, h, if_true]
    split <;> rfl

theorem scanInv_scanStep (d : Detector) (s : Scan) (m : Moments) (h : ScanInv s) :
    ScanInv (scanStep d s m) := by
  cases hr : inAreaRange d m with
  | false => rw [scanStep_of_not_inRange d s m hr]; exact h
  | true =>
    obtain ⟨h0, hl, hw, hn⟩ := h
    simp only [scanStep, hr, if_true]
    by_cases hle : s.Nmarkers ≤ 2
    · simp only [hle, if_true, writeLed]
      refine ⟨?_, by simp [hl], ?_, ?_⟩
      · show 0 ≤ s.Nmarkers + 1
        omega
      · intro i hi
        rw [List.mem_append] at hi
        rcases hi with hi | hi
        · exact hw i hi
        · have : i = s.Nmarkers := by simpa using hi
          omega
      · show (s.writes ++ [s.Nmarkers, s.Nmarkers]).length = 2 * min (s.Nmarkers + 1).toNat 3
        simp only [List.length_append, List.length_cons, List.length_nil, hn]
        omega
    · simp only [hle, if_false]
      refine ⟨?_, hl, hw, ?_⟩
      · show 0 ≤ s.Nmarkers + 1
        omega
      · show s.writes.length = 2 * min (s.Nmarkers + 1).toNat 3
        rw [hn]
        omega

theorem scanInv_scanStart (position : Position2D) : ScanInv (scanStart position) := by
  refine ⟨by simp [scanStart], by simp [scanStart], ?_, by simp [scanStart]⟩
  intro i hi
  simp [scanStart] at hi

/-- The loop from any state: the invariant is kept, `Nmarkers` grows by the
number of contours in the area range, and `position_valid` is not touched. -/
theorem scan_fold (d : Detector) (contours : List Moments) :
    ∀ s : Scan, ScanInv s →
      ScanInv (contours.foldl (scanStep d) s) ∧
      (contours.foldl (scanStep d) s).Nmarkers =
        s.Nmarkers + ((contours.filter (inAreaRange d)).length : Int) ∧
      (contours.foldl (scanStep d) s).position.position_valid =
        s.position.position_valid := by
  induction contours with
  | nil => intro s h; exact ⟨h, by simp, rfl⟩
  | cons m rest ih =>
    intro s h
    obtain ⟨hinv, hn, hv⟩ := ih (scanStep d s m) (scanInv_scanStep d s m h)
    refine ⟨hinv, ?_, ?_⟩
    · simp only [List.foldl_cons]
      rw [hn]
      cases hr : inAreaRange d m with
      | false => rw [scanStep_of_not_inRange d s m hr]; simp [List.filter, hr]
      | true =>
        rw [scanStep_Nmarkers d s m hr]
        simp [List.filter, hr]
        omega
    · simp only [List.foldl_cons]
      rw [hv, scanStep_position_valid]

/-- What the loop of `detectPosition` leaves. -/
theorem scan_spec (d : Detector) (contours : List Moments) (position : Position2D) :
    ScanInv (scan d contours position) ∧
    (scan d contours position).Nmarkers = ((markers d contours).length : Int) ∧
    (scan d contours position).position.position_valid = false := by
  obtain ⟨hinv, hn, hv⟩ := scan_fold d contours (scanStart position) (scanInv_scanStart position)
  refine ⟨hinv, ?_, ?_⟩
  · unfold scan markers
    rw [hn]
    simp [scanStart]
  · unfold scan
    rw [hv]
    rfl

/-- C13: `detectPosition` leaves `position_valid` true if and only if exactly
three contours have an area `a` with `min_object_area_ <= a` and
`a < max_object_area_`, for every list of contours and every position record
passed in; with fewer or more such contours it is false. -/
theorem position_valid_iff_three_markers (d : Detector) (contours : List Moments)
    (position : Position2D) :
    ((detectPosition d contours position).position.position_valid = true ↔
      (contours.filter (fun c =>
        decide (d.min_object_area_ ≤ c.m00) && decide (c.m00 < d.max_object_area_))).length
        = 3) ∧
    ((detectPosition d contours position).position.position_valid = false ↔
      (contours.filter (fun c =>
        decide (d.min_object_area_ ≤ c.m00) && decide (c.m00 < d.max_object_area_))).length
        ≠ 3) := by
  obtain ⟨-, hn, hv⟩ := scan_spec d contours position
  have hm : markers d contours = contours.filter (fun c =>
      decide (d.min_object_area_ ≤ c.m00) && decide (c.m00 < d.max_object_area_)) := rfl
  rw [← hm]
  have hiff : (detectPosition d contours position).position.position_valid = true ↔
      (markers d contours).length = 3 := by
    unfold detectPosition
    simp only
    by_cases h3 : (scan d contours position).Nmarkers = 3
    · rw [if_pos h3]
      rw [hn] at h3
      exact iff_of_true rfl (by exact_mod_cast h3)
    · rw [if_neg h3, hv]
      rw [hn] at h3
      exact iff_of_false (by simp) (fun h => h3 (by exact_mod_cast h))
  refine ⟨hiff, ?_⟩
  rw [ne_eq, ← hiff]
  simp

/-- C14: every write that `detectPosition` makes into `leds` uses the index 0,
1 or 2, for every number of contours in the area range.  `Nmarkers` counts all
of them, `leds` keeps its three elements, and only the first three are stored
(two assignments each). -/
theorem leds_writes_in_bounds (d : Detector) (contours : List Moments)
    (position : Position2D) :
    (∀ i ∈ (detectPosition d contours position).writes, i = 0 ∨ i = 1 ∨ i = 2) ∧
    (detectPosition d contours position).Nmarkers = ((markers d contours).length : Int) ∧
    (detectPosition d contours position).writes.length
      = 2 * min (markers d contours).length 3 ∧
    (detectPosition d contours position).leds.length = 3 := by
  obtain ⟨⟨-, hl, hw, hlen⟩, hn, -⟩ := scan_spec d contours position
  refine ⟨hw, hn, ?_, hl⟩
  show (scan d contours position).writes.length = _
  rw [hlen, hn]
  simp

/-- C14, at a concrete input: five contours in the area range; the index 2 is
written and `Nmarkers` ends at 5. -/
theorem leds_writes_in_bounds_witness :
    (2 : Int) ∈ (detectPosition (Detector.withAreas 10 100)
      [blob 20 10 10, blob 30 12 10, blob 40 11 20, blob 50 1 1, blob 60 2 2]
      Position2D.blank).writes ∧
    ((2 : Int) = 0 ∨ (2 : Int) = 1 ∨ (2 : Int) = 2) ∧
    (detectPosition (Detector.withAreas 10 100)
      [blob 20 10 10, blob 30 12 10, blob 40 11 20, blob 50 1 1, blob 60 2 2]
      Position2D.blank).Nmarkers = 5 := by
  have hmem : (2 : Int) ∈ (detectPosition (Detector.withAreas 10 100)
      [blob 20 10 10, blob 30 12 10, blob 40 11 20, blob 50 1 1, blob 60 2 2]
      Position2D.blank).writes := by decide!
  exact ⟨hmem,
    (leds_writes_in_bounds (Detector.withAreas 10 100)
      [blob 20 10 10, blob 30 12 10, blob 40 11 20, blob 50 1 1, blob 60 2 2]
      Position2D.blank).1 2 hmem, by decide!⟩

/-- When side 1-2 is strictly the shortest (in the stored distances), the
midpoint is that of `leds[1]` and `leds[2]` and the heading points to
`leds[0]`. -/
theorem midpointAndHeading_shortest0 (l0 l1 l2 : Point)
    (h1 : normInt (l1.sub l2) < normInt (l0.sub l2))
    (h2 : normInt (l1.sub l2) < normInt (l0.sub l1)) :
    midpointAndHeading l0 l1 l2 = ((l1.add l2).div 2, l0.sub ((l1.add l2).div 2)) := by
  have n1 : ¬ (normInt (l0.sub l2) < normInt (l1.sub l2) ∧
      normInt (l0.sub l2) < normInt (l0.sub l1)) := fun h => by omega
  have n2 : ¬ (normInt (l0.sub l1) < normInt (l0.sub l2) ∧
      normInt (l0.sub l1) < normInt (l1.sub l2)) := fun h => by omega
  simp only [midpointAndHeading, if_neg n1, if_neg n2, if_pos (And.intro h1 h2)]

/-- When side 0-2 is strictly the shortest, the midpoint is that of `leds[0]`
and `leds[2]` and the heading points to `leds[1]`. -/
theorem midpointAndHeading_shortest1 (l0 l1 l2 : Point)
    (h1 : normInt (l0.sub l2) < normInt (l1.sub l2))
    (h2 : normInt (l0.sub l2) < normInt (l0.sub l1)) :
    midpointAndHeading l0 l1 l2 = ((l0.add l2).div 2, l1.sub ((l0.add l2).div 2)) := by
  have n2 : ¬ (normInt (l0.sub l1) < normInt (l0.sub l2) ∧
      normInt (l0.sub l1) < normInt (l1.sub l2)) := fun h => by omega
  simp only [midpointAndHeading, if_neg n2, if_pos (And.intro h1 h2)]

/-- When side 0-1 is strictly the shortest, the midpoint is that of `leds[1]`
and `leds[0]` and the heading points to `leds[2]`. -/
theorem midpointAndHeading_shortest2 (l0 l1 l2 : Point)
    (h1 : normInt (l0.sub l1) < normInt (l0.sub l2))
    (h2 : normInt (l0.sub l1) < normInt (l1.sub l2)) :
    midpointAndHeading l0 l1 l2 = ((l1.add l0).div 2, l2.sub ((l1.add l0).div 2)) := by
  simp only [midpointAndHeading, if_pos (And.intro h1 h2)]

/-- When no stored distance is strictly smaller than the other two, none of
the three `if`s fires and both points keep their default value. -/
theorem midpointAndHeading_tie (l0 l1 l2 : Point)
    (n0 : ¬ (normInt (l1.sub l2) < normInt (l0.sub l2) ∧
      normInt (l1.sub l2) < normInt (l0.sub l1)))
    (n1 : ¬ (normInt (l0.sub l2) < normInt (l1.sub l2) ∧
      normInt (l0.sub l2) < normInt (l0.sub l1)))
    (n2 : ¬ (normInt (l0.sub l1) < normInt (l0.sub l2) ∧
      normInt (l0.sub l1) < normInt (l1.sub l2))) :
    midpointAndHeading l0 l1 l2 = (Point.zero, Point.zero) := by
  simp only [midpointAndHeading, if_neg n0, if_neg n1, if_neg n2]

/-- C11, at the failing input: three markers at (10,10), (15,11) and (7,15).
The side from (10,10) to (15,11) is the shortest (squared lengths 26, 34 and
80), its midpoint is (12,10) in `cv::Point` arithmetic and the vector to the
third marker is (-5,5); but the stored distances are 8, 5 and 5, no `if`
fires, and `detectPosition` reports the position (0,0) and the heading (0,0)
with `position_valid` true. -/
theorem detectPosition_tie_reports_origin :
    (detectPosition (Detector.withAreas 10 100)
      [blob 20 10 10, blob 30 15 11, blob 40 7 15] Position2D.blank).leds
      = [{ x := 10, y := 10 }, { x := 15, y := 11 }, { x := 7, y := 15 }] ∧
    (detectPosition (Detector.withAreas 10 100)
      [blob 20 10 10, blob 30 15 11, blob 40 7 15] Position2D.blank).position
      = { position_valid := true, heading_valid := true,
          position := { x := 0, y := 0 }, heading := { x := 0, y := 0 } } ∧
    ((Point.add { x := 10, y := 10 } { x := 15, y := 11 }).div 2
      = { x := 12, y := 10 }) ∧
    (normInt (Point.sub { x := 15, y := 11 } { x := 7, y := 15 }) = 8 ∧
     normInt (Point.sub { x := 10, y := 10 } { x := 7, y := 15 }) = 5 ∧
     normInt (Point.sub { x := 10, y := 10 } { x := 15, y := 11 }) = 5) := by
  decide!

/-- C12, at the failing input: three markers at (10,10), (12,10) and (11,20).
The shortest side is the one from (10,10) to (12,10), its midpoint is (11,10),
and `detectPosition` reports the heading (0,10), which is not of length one:
`heading.x^2 + heading.y^2 = 100`. -/
theorem detectPosition_heading_not_unit :
    (detectPosition (Detector.withAreas 10 100)
      [blob 20 10 10, blob 30 12 10, blob 40 11 20] Position2D.blank).position
      = { position_valid := true, heading_valid := true,
          position := { x := 11, y := 10 }, heading := { x := 0, y := 10 } } ∧
    (detectPosition (Detector.withAreas 10 100)
      [blob 20 10 10, blob 30 12 10, blob 40 11 20] Position2D.blank).position.heading.x ^ 2 +
    (detectPosition (Detector.withAreas 10 100)
      [blob 20 10 10, blob 30 12 10, blob 40 11 20] Position2D.blank).position.heading.y ^ 2
      = 100 := by
  decide!

end PlanarMultiLedDetector

/-! ## Theorems: the name of a viewer -/

namespace Viewer

theorem digitChar_injective_below_ten :
    ∀ a < 10, ∀ b < 10, digitChar a = digitChar b → a = b := by
  decide

theorem digitChar_ne_bracket : ∀ a < 10, digitChar a ≠ ']' := by
  decide

/-- Lists of decimal digits with the same characters are equal. -/
theorem map_digitChar_injective :
    ∀ l1 l2 : List Nat, (∀ x ∈ l1, x < 10) → (∀ x ∈ l2, x < 10) →
      l1.map digitChar = l2.map digitChar → l1 = l2 := by
  intro l1
  induction l1 with
  | nil =>
    intro l2 _ _ h
    cases l2 with
    | nil => rfl
    | cons y ys => simp at h
  | cons x xs ih =>
    intro l2 h1 h2 h
    cases l2 with
    | nil => simp at h
    | cons y ys =>
      simp only [List.map_cons, List.cons.injEq] at h
      have hx : x = y :=
        digitChar_injective_below_ten x (h1 x (List.mem_cons_self _ _)) y
          (h2 y (List.mem_cons_self _ _)) h.1
      have hxs : xs = ys :=
        ih ys (fun z hz => h1 z (List.mem_cons_of_mem _ hz))
          (fun z hz => h2 z (List.mem_cons_of_mem _ hz)) h.2
      rw [hx, hxs]

theorem digits_reverse_lt (n : Nat) : ∀ x ∈ (Nat.digits 10 n).reverse, x < 10 := by
  intro x hx
  exact Nat.digits_lt_base (by norm_num) (List.mem_reverse.mp hx)

/-- The characters of `to_string n`. -/
theorem to_string_data (n : Nat) :
    (to_string n).data =
      if n = 0 then ['0'] else (Nat.digits 10 n).reverse.map digitChar := by
  unfold to_string
  split <;> rfl

/-- The decimal form of a number has no closing bracket in it. -/
theorem bracket_not_mem_to_string (n : Nat) : ']' ∉ (to_string n).data := by
  rw [to_string_data]
  split
  · decide
  · intro h
    obtain ⟨d, hd, hc⟩ := List.mem_map.mp h
    exact digitChar_ne_bracket d (digits_reverse_lt n d hd) hc

/-- A number that is not zero does not print as the digit 0. -/
theorem digits_ne_zero_char (n : Nat) (hn : n ≠ 0) :
    (Nat.digits 10 n).reverse.map digitChar ≠ ['0'] := by
  intro h
  have h0 : (Nat.digits 10 n).reverse = [0] :=
    map_digitChar_injective _ [0] (digits_reverse_lt n) (by simp) (by simpa using h)
  have h1 : Nat.digits 10 n = [0] := by
    have := congrArg List.reverse h0
    simpa using this
  have h2 : Nat.ofDigits 10 (Nat.digits 10 n) = n := Nat.ofDigits_digits 10 n
  rw [h1] at h2
  simp [Nat.ofDigits] at h2
  exact hn h2.symm

/-- Different numbers have different decimal forms. -/
theorem to_string_injective (n m : Nat) (h : to_string n = to_string m) : n = m := by
  have hd : (to_string n).data = (to_string m).data := by rw [h]
  rw [to_string_data, to_string_data] at hd
  by_cases hn : n = 0
  · by_cases hm : m = 0
    · rw [hn, hm]
    · rw [if_pos hn, if_neg hm] at hd
      exact absurd hd.symm (digits_ne_zero_char m hm)
  · by_cases hm : m = 0
    · rw [if_neg hn, if_pos hm] at hd
      exact absurd hd (digits_ne_zero_char n hn)
    · rw [if_neg hn, if_neg hm] at hd
      have hr : (Nat.digits 10 n).reverse = (Nat.digits 10 m).reverse :=
        map_digitChar_injective _ _ (digits_reverse_lt n) (digits_reverse_lt m) hd
      exact Nat.digits.injective 10 (List.reverse_injective hr)

/-- Two lists cut at the last occurrence of `c` agree part by part. -/
theorem split_at_last (c : Char) (b b1 : List Char) (hb : c ∉ b) (hb1 : c ∉ b1) :
    ∀ a a1 : List Char, a ++ c :: b = a1 ++ c :: b1 → a = a1 ∧ b = b1 := by
  intro a
  induction a with
  | nil =>
    intro a1 h
    cases a1 with
    | nil => exact ⟨rfl, by simpa using h⟩
    | cons y ys =>
      simp only [List.nil_append, List.cons_append, List.cons.injEq] at h
      exact absurd (by rw [h.2]; simp) hb
  | cons x xs ih =>
    intro a1 h
    cases a1 with
    | nil =>
      simp only [List.nil_append, List.cons_append, List.cons.injEq] at h
      exact absurd (by rw [← h.2]; simp) hb1
    | cons y ys =>
      simp only [List.cons_append, List.cons.injEq] at h
      obtain ⟨hxs, hbb⟩ := ih ys h.2
      exact ⟨by rw [h.1, hxs], hbb⟩

/-- The characters of a viewer's name. -/
theorem name_data (s : String) (n : Nat) :
    (name s n).data =
      ['v', 'i', 'e', 'w', 'e', 'r', '['] ++ (s.data ++ ']' :: (to_string n).data) := by
  simp [name, String.data_append]

/-- C15: a viewer's name is `"viewer[" + source + "]"` followed by the decimal
form of the client number, and the map from (source name, client number) to
the name is injective: equal names imply equal source names and equal client
numbers. -/
theorem viewer_name_injective (s s1 : String) (n n1 : Nat) (h : name s n = name s1 n1) :
    name s n = "viewer[" ++ s ++ "]" ++ to_string n ∧ s = s1 ∧ n = n1 := by
  refine ⟨rfl, ?_⟩
  have hd : (name s n).data = (name s1 n1).data := by rw [h]
  rw [name_data, name_data] at hd
  have hcut := List.append_cancel_left hd
  obtain ⟨hs, hn⟩ := split_at_last ']' _ _ (bracket_not_mem_to_string n)
    (bracket_not_mem_to_string n1) _ _ hcut
  exact ⟨String.ext hs, to_string_injective n n1 (String.ext hn)⟩

/-- C15, at a concrete input: the third client of the source `cam`. -/
theorem viewer_name_injective_witness :
    name "cam" 3 = name "cam" 3 ∧
    name "cam" 3 = "viewer[" ++ "cam" ++ "]" ++ to_string 3 ∧ "cam" = "cam" ∧ 3 = 3 :=
  ⟨rfl, viewer_name_injective "cam" "cam" 3 3 rfl⟩

end Viewer

end Oat
